import Mathlib

/-!
Verification of the SOW comparison core: section segmentation, section
alignment, token-set similarity, formatting diffing and the AI-analyzer
error handling, shallowly embedded from the TypeScript sources.

Conventions of the embedding:
* JavaScript strings are Lean `String`s (lengths and `substring` counted in
  characters; the sources only rely on ASCII behaviour).
* JavaScript numbers are exact rationals (`ℚ`); the scores summed by the
  aligners are integers and small decimal multiples, where exact and
  floating-point arithmetic agree except on ties of denormal weight.
* `string | null` / optional fields become `Option`; JavaScript truthiness
  on such values (null, undefined, "" and 0 are falsy) is made explicit.
* Fresh `uuidv4()` identifiers attached to freshly created records are
  omitted: they are never read by any of the embedded computations.
-/

namespace SOW

/-- Core section record (src/types/index.ts, `interface Section`).
`startIndex`/`endIndex` are omitted here; the aligners never read them. -/
structure Section where
  id : String
  number : Option String
  title : Option String
  level : Nat
  body : String
  deriving DecidableEq, Repr

/-- JavaScript truthiness of a `string | null | undefined` value. -/
def truthyStr : Option String → Bool
  | none => false
  | some s => s ≠ ""

/-! Character-level models of the JavaScript string primitives used by the
sources (`toLowerCase`, `toUpperCase`, `trim`, `split`, `substring`,
`startsWith`); the sources rely on their ASCII behaviour only. -/

/-- `s.toLowerCase()`. -/
def jsToLower (s : String) : String := String.mk (s.toList.map Char.toLower)

/-- `s.toUpperCase()`. -/
def jsToUpper (s : String) : String := String.mk (s.toList.map Char.toUpper)

/-- `s.trim()`. -/
def jsTrim (s : String) : String :=
  String.mk (((s.toList.dropWhile Char.isWhitespace).reverse.dropWhile
    Char.isWhitespace).reverse)

/-- `s.substring(0, n)`. -/
def jsTake (s : String) (n : Nat) : String := String.mk (s.toList.take n)

/-- `s.substring(n)`. -/
def jsDrop (s : String) (n : Nat) : String := String.mk (s.toList.drop n)

/-- `s.startsWith(pre)`. -/
def jsStartsWith (s pre : String) : Bool := pre.toList.isPrefixOf s.toList

/-- Split a character list at every separator character (keeping empty
pieces, as `String.split` and single-character `String.splitOn` do). -/
def splitChars (p : Char → Bool) : List Char → List (List Char)
  | [] => [[]]
  | c :: cs =>
      if p c then [] :: splitChars p cs
      else
        match splitChars p cs with
        | g :: gs => (c :: g) :: gs
        | [] => [[c]]

/-- `s.split(sep)` as strings. -/
def jsSplit (p : Char → Bool) (s : String) : List String :=
  (splitChars p s.toList).map String.mk

/-- `text.replace(/\r\n/g, "\n")` (left-to-right, non-overlapping). -/
def stripCR : List Char → List Char
  | '\r' :: '\n' :: cs => '\n' :: stripCR cs
  | c :: cs => c :: stripCR cs
  | [] => []

namespace DiffUtils

/-- Lower-case, split on runs of whitespace, drop empty pieces: the token
list built by `calculateSimilarity` (src/utils/diffUtils.ts):
`str.toLowerCase().split(/\s+/).filter(Boolean)`. -/
def tokenize (s : String) : List String :=
  (jsSplit (fun c => c.isWhitespace) (jsToLower s)).filter (fun w => w ≠ "")

/-- Token-set similarity (src/utils/diffUtils.ts, `calculateSimilarity`).
`Math.round((matches / union) * 100)` on naturals is
`(200 * matches + union) / (2 * union)` (round half up, exact). -/
def calculateSimilarity (str1 str2 : String) : Nat :=
  if str1 = "" ∧ str2 = "" then 100
  else if str1 = "" ∨ str2 = "" then 0
  else
    let words1 := tokenize str1
    let words2 := tokenize str2
    if words1 = [] ∧ words2 = [] then 100
    else if words1 = [] ∨ words2 = [] then 0
    else
      let set1 := words1.toFinset
      let set2 := words2.toFinset
      let inter := (set1.filter (fun w => w ∈ set2)).card
      let union := (set1 ∪ set2).card
      (200 * inter + union) / (2 * union)

/-- `Math.round` on a non-negative quantity: floor of q + 1/2. -/
def roundHalfUp (q : ℚ) : ℕ := ⌊q + 1 / 2⌋₊

end DiffUtils

/-- Number of '.' characters in a numbering token. -/
def countDots (s : String) : Nat := s.toList.countP (fun c => c = '.')

/-- The roman-numeral letters, lower-cased. -/
def romanChars : List Char := ['i', 'v', 'x', 'l', 'c', 'd', 'm']

/-- `/^[IVXLCDM]+$/i.test(s)`. -/
def isRomanToken (s : String) : Bool :=
  s ≠ "" && s.toList.all (fun c => c.toLower ∈ romanChars)

/-- `/^[A-Z]$/i.test(s)`. -/
def isSingleLetterToken (s : String) : Bool :=
  match s.toList with
  | [c] => c.isAlpha
  | _ => false

/-- ASCII alphanumeric (the effective class of `[a-z0-9ivx]` under `/i`). -/
def isAlnum (c : Char) : Bool := c.isAlpha || c.isDigit

/-- `/^\([a-z0-9ivx]+\)$/i.test(s)`. -/
def isParenToken (s : String) : Bool :=
  match s.toList with
  | '(' :: rest =>
      rest.getLast? = some ')' && rest.dropLast ≠ [] && rest.dropLast.all isAlnum
  | _ => false

namespace SowParser

/-- `calculateSectionLevel` from the plain-text parser (src/unnamed/part_005):
dot count + 1 for dotted tokens, 1 for roman numerals, 2 for single letters,
3 for parenthesized tokens, 1 otherwise (and for absent/empty tokens). -/
def calculateSectionLevel (number : Option String) : Nat :=
  match number with
  | none => 1
  | some n =>
      if n = "" then 1
      else if 0 < countDots n then countDots n + 1
      else if isRomanToken n then 1
      else if isSingleLetterToken n then 2
      else if isParenToken n then 3
      else 1

end SowParser

namespace DocxParser

/-- `calculateSectionLevel` from src/src/services/docxParser.ts: dot count + 1
for dotted tokens, and 1 in every other case (the roman-numeral test there
also just returns 1). -/
def calculateSectionLevel (number : Option String) : Nat :=
  match number with
  | none => 1
  | some n =>
      if n = "" then 1
      else if 0 < countDots n then countDots n + 1
      else if isRomanToken n then 1
      else 1

/-- Tokens capturable as `\d+(?:\.\d+)*`. -/
def digitsDottedToken (s : String) : Bool :=
  (splitChars (fun c => c = '.') s.toList).all
    (fun g => g ≠ [] && g.all Char.isDigit)

/-- Tokens capturable as `[IVXLCDM\d]+` under `/i` (the ARTICLE pattern). -/
def romanDigitToken (s : String) : Bool :=
  s ≠ "" && s.toList.all (fun c => c.toLower ∈ romanChars || c.isDigit)

/-- The numbering tokens extractable by docxParser's three
`SECTION_PATTERNS` (dotted numerics, or roman/digit runs). -/
def numberTokenShape (s : String) : Bool :=
  digitsDottedToken s || romanDigitToken s

end DocxParser

/-- Substring containment, `hay.includes(needle)` on JavaScript strings. -/
def strIncludes (hay needle : String) : Bool :=
  hay.toList.tails.any (fun t => needle.toList.isPrefixOf t)

/-- The greedy best-candidate loop shared (in shape) by all three aligner
variants: walk the template list left to right, skip templates whose id is
already claimed, keep the strictly highest score seen so far (ties keep the
first-seen candidate); the accumulator starts at `(none, 0)`.  `matchSections`
uses it with an empty claimed set, since it never claims templates. -/
def bestLoop (used : List String) (score : Section → ℚ) :
    List Section → (Option Section × ℚ) → (Option Section × ℚ)
  | [], acc => acc
  | t :: ts, acc =>
      bestLoop used score ts
        (if t.id ∈ used then acc
         else if acc.2 < score t then (some t, score t) else acc)

namespace DocxParser

/-- Per-candidate score of `matchSections` (src/src/services/docxParser.ts):
+100 exact number match / +50 mutual string-prefix numbers, +80 exact
lower-cased title / +40 title containment, +10 equal levels.  The guards
`newSection.number && templateSection.number` treat "" as absent. -/
def matchScore (newSection templateSection : Section) : ℚ :=
  let numScore : ℚ :=
    match newSection.number, templateSection.number with
    | some dn, some tn =>
        if dn = "" ∨ tn = "" then 0
        else if dn = tn then 100
        else if jsStartsWith dn tn ∨ jsStartsWith tn dn then 50
        else 0
    | _, _ => 0
  let titleScore : ℚ :=
    match newSection.title, templateSection.title with
    | some dt, some tt =>
        if dt = "" ∨ tt = "" then 0
        else
          let nt := jsToLower dt
          let tt2 := jsToLower tt
          if nt = tt2 then 80
          else if strIncludes nt tt2 ∨ strIncludes tt2 nt then 40
          else 0
    | _, _ => 0
  let levelScore : ℚ := if newSection.level = templateSection.level then 10 else 0
  numScore + titleScore + levelScore

/-- `matchSections` (src/src/services/docxParser.ts): for each draft section
take the highest scorer over ALL template sections (no claimed set, no
confidence floor) and record `bestMatch?.id || null` (an empty id is
falsy, hence recorded as null). -/
def matchSections (templateSections newSections : List Section) :
    List (String × Option String) :=
  newSections.map (fun n =>
    let best := bestLoop [] (matchScore n) templateSections (none, 0)
    (n.id,
      match best.1 with
      | some t => if t.id = "" then none else some t.id
      | none => none))

end DocxParser

namespace ComparisonView

/-- Per-candidate score of the `sectionPairs` matcher
(src/src/components/ComparisonView.tsx): +100 exact number / +50 mutual
string-prefix numbers, title token-set similarity × 0.8, body token-set
similarity over the first 500 characters × 0.2 (always added), +10 equal
levels. -/
def pairScore (draftSection templateSection : Section) : ℚ :=
  let numScore : ℚ :=
    match draftSection.number, templateSection.number with
    | some dn, some tn =>
        if dn = "" ∨ tn = "" then 0
        else if dn = tn then 100
        else if jsStartsWith dn tn ∨ jsStartsWith tn dn then 50
        else 0
    | _, _ => 0
  let titleScore : ℚ :=
    match draftSection.title, templateSection.title with
    | some dt, some tt =>
        if dt = "" ∨ tt = "" then 0
        else (DiffUtils.calculateSimilarity dt tt : ℚ) * 0.8
    | _, _ => 0
  let contentScore : ℚ :=
    (DiffUtils.calculateSimilarity (jsTake draftSection.body 500)
      (jsTake templateSection.body 500) : ℚ) * 0.2
  let levelScore : ℚ := if draftSection.level = templateSection.level then 10 else 0
  numScore + titleScore + contentScore + levelScore

/-- One draft-section step of the `sectionPairs` loop: the best unclaimed
candidate is accepted only when its score reaches the floor of 30. -/
def alignStep (used : List String) (templateSections : List Section)
    (draftSection : Section) : Option Section :=
  let best := bestLoop used (pairScore draftSection) templateSections (none, 0)
  match best.1 with
  | some t => if 30 ≤ best.2 then some t else none
  | none => none

/-- The draft-to-template map computed by `sectionPairs`
(src/src/components/ComparisonView.tsx).  The UI record also carries the
match score and per-section issues; neither feeds back into the matching,
so the embedding returns the id map. -/
def sectionPairs (templateSections draftSections : List Section) :
    List (String × Option String) :=
  (draftSections.foldl
    (fun (st : List String × List (String × Option String)) d =>
      match alignStep st.1 templateSections d with
      | some t => (t.id :: st.1, st.2 ++ [(d.id, some t.id)])
      | none => (st.1, st.2 ++ [(d.id, none)]))
    ([], [])).2

end ComparisonView

namespace ReviewDashboard

/-- Per-candidate score of the `sectionMatches` matcher
(src/src/components/ReviewDashboard.tsx): +100 exact number (no prefix
tier), +80 exact lower-cased title / +40 title containment; no body or
level signal. -/
def matchScore (draftSection templateSection : Section) : ℚ :=
  let numScore : ℚ :=
    match draftSection.number, templateSection.number with
    | some dn, some tn => if dn = "" ∨ tn = "" then 0 else if dn = tn then 100 else 0
    | _, _ => 0
  let titleScore : ℚ :=
    match draftSection.title, templateSection.title with
    | some dt, some tt =>
        if dt = "" ∨ tt = "" then 0
        else
          let t1 := jsToLower dt
          let t2 := jsToLower tt
          if t1 = t2 then 80
          else if strIncludes t1 t2 ∨ strIncludes t2 t1 then 40
          else 0
    | _, _ => 0
  numScore + titleScore

/-- One draft-section step of the `sectionMatches` loop: floor of 40. -/
def alignStep (used : List String) (templateSections : List Section)
    (draftSection : Section) : Option Section :=
  let best := bestLoop used (matchScore draftSection) templateSections (none, 0)
  match best.1 with
  | some t => if 40 ≤ best.2 then some t else none
  | none => none

/-- The draft-to-template map computed by `sectionMatches`
(src/src/components/ReviewDashboard.tsx); the issue/status/isResolved
fields of the UI record do not feed back into the matching. -/
def sectionMatches (templateSections draftSections : List Section) :
    List (String × Option String) :=
  (draftSections.foldl
    (fun (st : List String × List (String × Option String)) d =>
      match alignStep st.1 templateSections d with
      | some t => (t.id :: st.1, st.2 ++ [(d.id, some t.id)])
      | none => (st.1, st.2 ++ [(d.id, none)]))
    ([], [])).2

end ReviewDashboard

/-! Character-level embeddings of the numbering regexes.  Each parser
consumes greedily; for these patterns greedy matching coincides with the
backtracking regex semantics on trimmed inputs (shorter token splits always
fail, and characters moved between `\s+`/`\s*` and the `.`-classes never
rescue a failed match). -/

/-- Greedy consumption of `\d+(?:\.\d+)*` past a leading digit: token
characters and unconsumed remainder. -/
def numTail : List Char → List Char × List Char
  | [] => ([], [])
  | c :: cs =>
      if c.isDigit then
        let r := numTail cs
        (c :: r.1, r.2)
      else if c = '.' then
        match cs with
        | d :: ds =>
            if d.isDigit then
              let r := numTail (d :: ds)
              (c :: r.1, r.2)
            else ([], c :: cs)
        | [] => ([], [c])
      else ([], c :: cs)

/-- `\s+(.+)$` (no newline inside `.`): the captured rest, if any. -/
def spaceRest (r : List Char) : Option String :=
  let ws := r.takeWhile Char.isWhitespace
  let r2 := r.dropWhile Char.isWhitespace
  if ws ≠ [] ∧ r2 ≠ [] ∧ r2.all (fun ch => ch ≠ '\n') then some (String.mk r2)
  else none

/-- `\.\s+(.+)$`. -/
def dotSpaceRest : List Char → Option String
  | '.' :: r => spaceRest r
  | _ => none

/-- Case-insensitive literal: strips `pat` (given lower-cased) from the
front of `cs`. -/
def stripCI : List Char → List Char → Option (List Char)
  | [], cs => some cs
  | _ :: _, [] => none
  | p :: ps, c :: cs => if c.toLower = p then stripCI ps cs else none

/-- `[:\.]?\s*(.*)$`: optional ':' or '.', whitespace, then a newline-free
(possibly empty) captured rest. -/
def afterToken (r : List Char) : Option String :=
  let r1 := match r with
    | ':' :: t => t
    | '.' :: t => t
    | t => t
  let r2 := r1.dropWhile Char.isWhitespace
  if r2.all (fun ch => ch ≠ '\n') then some (String.mk r2) else none

/-- `/^(\d+(?:\.\d+)*)\.\s+(.+)$/`. -/
def matchNumberedPattern (cs : List Char) : Option (String × String) :=
  match cs with
  | [] => none
  | c :: _ =>
      if c.isDigit then
        let r := numTail cs
        (dotSpaceRest r.2).map (fun t => (String.mk r.1, t))
      else none

/-- `/^([IVXLCDM]+)\.\s+(.+)$/i`. -/
def matchRomanPattern (cs : List Char) : Option (String × String) :=
  let tok := cs.takeWhile (fun c => c.toLower ∈ romanChars)
  let rest := cs.dropWhile (fun c => c.toLower ∈ romanChars)
  if tok = [] then none
  else (dotSpaceRest rest).map (fun t => (String.mk tok, t))

/-- `/^([A-Z])\.\s+(.+)$/`. -/
def matchLetterPattern (cs : List Char) : Option (String × String) :=
  match cs with
  | c :: rest =>
      if 'A' ≤ c ∧ c ≤ 'Z' then (dotSpaceRest rest).map (fun t => (String.mk [c], t))
      else none
  | [] => none

/-- `/^\(([a-z0-9ivx]+)\)\s+(.+)$/i`. -/
def matchParenPattern (cs : List Char) : Option (String × String) :=
  match cs with
  | '(' :: rest =>
      let tok := rest.takeWhile isAlnum
      let r2 := rest.dropWhile isAlnum
      if tok = [] then none
      else
        match r2 with
        | ')' :: r3 => (spaceRest r3).map (fun t => (String.mk tok, t))
        | _ => none
  | _ => none

/-- `/^(?:SECTION|Section)\s+(\d+(?:\.\d+)*)[:\.]?\s*(.*)$/i`. -/
def matchSectionKeywordPattern (cs : List Char) : Option (String × String) :=
  match stripCI "section".toList cs with
  | none => none
  | some r1 =>
      let ws := r1.takeWhile Char.isWhitespace
      let r2 := r1.dropWhile Char.isWhitespace
      if ws = [] then none
      else
        match r2 with
        | [] => none
        | c :: _ =>
            if c.isDigit then
              let r := numTail r2
              (afterToken r.2).map (fun t => (String.mk r.1, t))
            else none

/-- `/^(?:ARTICLE|Article)\s+([IVXLCDM\d]+)[:\.]?\s*(.*)$/i`. -/
def matchArticlePattern (cs : List Char) : Option (String × String) :=
  match stripCI "article".toList cs with
  | none => none
  | some r1 =>
      let ws := r1.takeWhile Char.isWhitespace
      let r2 := r1.dropWhile Char.isWhitespace
      if ws = [] then none
      else
        let tok := r2.takeWhile (fun c => c.toLower ∈ romanChars || c.isDigit)
        let rest := r2.dropWhile (fun c => c.toLower ∈ romanChars || c.isDigit)
        if tok = [] then none
        else (afterToken rest).map (fun t => (String.mk tok, t))

/-- Dot-leader characters of the TOC-entry pattern `[.·…]`. -/
def isDotLeader (c : Char) : Bool := c = '.' || c = '·' || c = '…'

/-- `isTocEntry` (docxParser.ts): text ending in a dot-leader run of length
at least 3, optional whitespace and a page number, or in tabs followed by a
page number: `/[.·…]\x7b3,\x7d\s*\d+\s*$/ || /\t+\d+\s*$/`. -/
def isTocEntry (s : String) : Bool :=
  let r := s.toList.reverse
  let r1 := r.dropWhile Char.isWhitespace
  let ds := r1.takeWhile Char.isDigit
  let r2 := r1.dropWhile Char.isDigit
  ds ≠ [] &&
    (3 ≤ ((r2.dropWhile Char.isWhitespace).takeWhile isDotLeader).length
      || r2.takeWhile (fun c => c = '\t') ≠ [])

/-- Lower-case and collapse whitespace runs to single spaces; full-match
tests of the `\s+`-separated title vocabulary become list membership. -/
def normWS (s : String) : String :=
  String.intercalate " "
    ((jsSplit (fun c => c.isWhitespace) (jsToLower s)).filter (fun w => w ≠ ""))

namespace DocxParser

/-- The normalized full-match alternatives of `SECTION_TITLE_PATTERNS`
(docxParser.ts), excluding the appendix/exhibit/schedule pattern. -/
def sectionTitleVocab : List String :=
  ["executive summary", "scope of work", "scope of services", "deliverables",
   "timeline", "milestone", "milestones",
   "payment term", "payment terms", "pricing", "fee", "fees",
   "term and termination", "terms and termination", "termination",
   "confidentiality", "intellectual property",
   "liability", "limitation of liability", "indemnification",
   "warranty", "warranties", "service level agreement", "sla",
   "acceptance criteria", "definition", "definitions",
   "background", "introduction", "overview",
   "assumptions", "dependencies", "exclusions"]

/-- `/^(appendix|exhibit|schedule)\s*[a-z0-9]*$/i` on the normalized text:
the keyword alone, keyword directly followed by an alphanumeric run, or
keyword, one space and an alphanumeric run. -/
def appendixLike (n : String) : Bool :=
  ["appendix", "exhibit", "schedule"].any (fun w =>
    n = w
    || (jsStartsWith n w && jsDrop n w.length ≠ ""
          && (jsDrop n w.length).toList.all isAlnum)
    || (jsStartsWith n (w ++ " ") && jsDrop n (w.length + 1) ≠ ""
          && (jsDrop n (w.length + 1)).toList.all isAlnum))

/-- Membership test against `SECTION_TITLE_PATTERNS`. -/
def matchesTitleVocab (trimmed : String) : Bool :=
  let n := normWS trimmed
  n ∈ sectionTitleVocab || appendixLike n

/-- `/[A-Z]/.test(s)`. -/
def hasAsciiUpper (s : String) : Bool := s.toList.any (fun c => 'A' ≤ c && c ≤ 'Z')

/-- `match[2]?.trim() || "Untitled"` of `detectSectionHeader`. -/
def titleOrUntitled (t : String) : String :=
  if jsTrim t = "" then "Untitled" else jsTrim t

/-- `detectSectionHeader` (docxParser.ts): length gates, TOC-entry
rejection, the three `SECTION_PATTERNS`, then (below 60 characters) the
title vocabulary and the short-all-caps rule.  Returns `(number, title)`. -/
def detectSectionHeader (text : String) : Option (Option String × String) :=
  let trimmed := jsTrim text
  if trimmed = "" ∨ trimmed.length < 3 ∨ 150 < trimmed.length then none
  else if isTocEntry trimmed then none
  else
    match matchNumberedPattern trimmed.toList <|>
        matchSectionKeywordPattern trimmed.toList <|>
        matchArticlePattern trimmed.toList with
    | some (num, title) => some (some num, titleOrUntitled title)
    | none =>
        if trimmed.length < 60 then
          if matchesTitleVocab trimmed then some (none, trimmed)
          else if trimmed = jsToUpper trimmed ∧ 3 < trimmed.length ∧ hasAsciiUpper trimmed
            then some (none, trimmed)
          else none
        else none

/-- An open (not yet closed) section of the segmentation loop. -/
structure PendingSection where
  number : Option String
  title : String
  level : Nat
  startIndex : Nat
  deriving DecidableEq, Repr

/-- A closed section as pushed by `extractSectionsFromHtml`.  The uuid id is
omitted; `paras` records the accumulated `currentBody` array whose
`"\n\n"`-join is the stored `body`. -/
structure HSection where
  number : Option String
  title : String
  level : Nat
  body : String
  paras : List String
  startIndex : Nat
  deriving DecidableEq, Repr

/-- Closing a section: `currentSection.body = currentBody.join("\n\n")`. -/
def finishSection (p : PendingSection) (body : List String) : HSection :=
  ⟨p.number, p.title, p.level, String.intercalate "\n\n" body, body, p.startIndex⟩

/-- Mutable state of the `extractSectionsFromHtml` paragraph loop. -/
structure SegState where
  current : Option PendingSection
  curBody : List String
  toc : Bool
  out : List HSection
  deriving DecidableEq, Repr

/-- `/^table\s+of\s+contents$/i.test(t) || /^contents$/i.test(t)`. -/
def isTocTrigger (t : String) : Bool :=
  normWS t = "table of contents" || normWS t = "contents"

/-- One iteration of the `extractSectionsFromHtml` paragraph loop
(docxParser.ts lines 134-194), in statement order: skip empty, enter TOC
mode on a trigger, skip TOC entries while in TOC mode, leave TOC mode on a
long non-TOC paragraph, then header detection / body accumulation /
implicit Introduction. -/
def segStep (st : SegState) (para : String) : SegState :=
  let trimmed := jsTrim para
  if trimmed = "" then st
  else if isTocTrigger trimmed then { st with toc := true }
  else if st.toc && isTocEntry trimmed then st
  else
    let toc1 := if st.toc && !isTocEntry trimmed && 60 < trimmed.length then false else st.toc
    match detectSectionHeader trimmed with
    | some (num, title) =>
        let out1 := match st.current with
          | some p => st.out ++ [finishSection p st.curBody]
          | none => st.out
        ⟨some ⟨num, title, calculateSectionLevel num, out1.length⟩, [], false, out1⟩
    | none =>
        match st.current with
        | some _ => ⟨st.current, if toc1 then st.curBody else st.curBody ++ [trimmed], toc1, st.out⟩
        | none => ⟨some ⟨none, "Introduction", 1, 0⟩, [trimmed], toc1, st.out⟩

/-- The segmentation pass of `extractSectionsFromHtml` over the extracted
paragraph list (the HTML-tag scraping that produces that list is not
modelled; the claims quantify over the paragraph list itself). -/
def extractSectionsFromParas (paras : List String) : List HSection :=
  let st := paras.foldl segStep ⟨none, [], false, []⟩
  match st.current with
  | some p => st.out ++ [finishSection p st.curBody]
  | none => st.out

end DocxParser

namespace SowParser

/-- `COMMON_SECTION_TITLES` (src/unnamed/part_005). -/
def commonSectionTitles : List String :=
  ["scope of work", "scope of services", "deliverables", "timeline",
   "milestones", "payment terms", "pricing", "fees", "term and termination",
   "termination", "confidentiality", "intellectual property", "liability",
   "limitation of liability", "indemnification", "warranty", "warranties",
   "service level agreement", "sla", "acceptance criteria",
   "change management", "governance", "definitions", "background",
   "introduction", "overview", "assumptions", "dependencies", "exclusions",
   "appendix", "exhibit", "schedule"]

/-- `match[2]?.trim() || null` of `parseParagraphAsSection`. -/
def titleOrNone (t : String) : Option String :=
  if jsTrim t = "" then none else some (jsTrim t)

/-- The all-caps / known-title heuristic of `parseParagraphAsSection`:
`(trimmed === trimmed.toUpperCase() && trimmed.length < 100) ||
COMMON_SECTION_TITLES.some(t => trimmed.toLowerCase().includes(t))`. -/
def isLikelyTitle (trimmed : String) : Bool :=
  (trimmed = jsToUpper trimmed && trimmed.length < 100)
  || commonSectionTitles.any (fun t => strIncludes (jsToLower trimmed) t)

/-- `parseParagraphAsSection` (src/unnamed/part_005): the six
`SECTION_PATTERNS` in order, then the likely-title heuristic under the
150-character ceiling.  Returns `(number, title, level)`; the startIndex
and the provisional body (overwritten on close) are supplied by the loop. -/
def parseParagraphAsSection (text : String) : Option (Option String × Option String × Nat) :=
  let trimmed := jsTrim text
  if trimmed = "" ∨ trimmed.length < 3 then none
  else
    let cs := trimmed.toList
    match matchNumberedPattern cs <|> matchRomanPattern cs <|>
        matchLetterPattern cs <|> matchParenPattern cs <|>
        matchSectionKeywordPattern cs <|> matchArticlePattern cs with
    | some (num, title) =>
        some (some num, titleOrNone title, calculateSectionLevel (some num))
    | none =>
        if isLikelyTitle trimmed && trimmed.length < 150 then
          some (none, some trimmed, 1)
        else none

/-- Paragraph splitting of `extractSections`: normalize line endings, split
on newline runs, keep paragraphs with non-empty trim. -/
def splitParas (text : String) : List String :=
  ((splitChars (fun c => c = '\n') (stripCR text.toList)).map String.mk).filter
    (fun p => jsTrim p ≠ "")

/-- An open section of the `extractSections` loop. -/
structure TPending where
  number : Option String
  title : Option String
  level : Nat
  startIndex : Nat
  deriving DecidableEq, Repr

/-- A closed section as pushed by `extractSections` (uuid id omitted;
`paras` records the `currentBody` array joined into `body`). -/
structure TSection where
  number : Option String
  title : Option String
  level : Nat
  body : String
  paras : List String
  startIndex : Nat
  endIndex : Nat
  deriving DecidableEq, Repr

/-- Closing a section in `extractSections`. -/
def finishSection (p : TPending) (body : List String) (endIdx : Nat) : TSection :=
  ⟨p.number, p.title, p.level, String.intercalate "\n\n" body, body, p.startIndex, endIdx⟩

/-- Mutable state of the `extractSections` loop. -/
structure TState where
  current : Option TPending
  curBody : List String
  out : List TSection
  deriving DecidableEq, Repr

/-- One iteration of the `extractSections` loop (part_005 lines 130-160):
header detection is attempted only below 200 characters; a header closes
the open section, otherwise the paragraph joins the open body or opens the
implicit Introduction. -/
def stepPara (st : TState) (ip : Nat × String) : TState :=
  let i := ip.1
  let para := jsTrim ip.2
  if para = "" then st
  else
    let potential := if para.length < 200 then parseParagraphAsSection para else none
    match potential with
    | some (num, title, lvl) =>
        let out1 := match st.current with
          | some p => st.out ++ [finishSection p st.curBody (i - 1)]
          | none => st.out
        ⟨some ⟨num, title, lvl, i⟩, [], out1⟩
    | none =>
        match st.current with
        | some _ => ⟨st.current, st.curBody ++ [para], st.out⟩
        | none => ⟨some ⟨none, some "Introduction", 1, i⟩, [para], st.out⟩

/-- `extractSections` (src/unnamed/part_005). -/
def extractSections (text : String) : List TSection :=
  let paragraphs := splitParas text
  let st := paragraphs.enum.foldl stepPara ⟨none, [], []⟩
  match st.current with
  | some p => st.out ++ [finishSection p st.curBody (paragraphs.length - 1)]
  | none => st.out

end SowParser

/-- Severity levels (src/types/index.ts). -/
inductive Severity
  | high
  | medium
  | low
  deriving DecidableEq, Repr

/-- `TextRunFormatting` (src/types/index.ts); absent optional fields are
`none`. -/
structure TextRunFormatting where
  bold : Option Bool := none
  italic : Option Bool := none
  underline : Option Bool := none
  strike : Option Bool := none
  fontSize : Option ℚ := none
  fontFamily : Option String := none
  color : Option String := none
  highlight : Option String := none
  deriving DecidableEq, Repr

/-- `ParagraphFormatting` (src/types/index.ts). -/
structure ParagraphFormatting where
  alignment : Option String := none
  indentLeft : Option ℚ := none
  indentRight : Option ℚ := none
  indentFirstLine : Option ℚ := none
  spacingBefore : Option ℚ := none
  spacingAfter : Option ℚ := none
  lineSpacing : Option ℚ := none
  styleId : Option String := none
  styleName : Option String := none
  outlineLevel : Option ℚ := none
  deriving DecidableEq, Repr

/-- `RichTextRun` (src/types/index.ts). -/
structure RichTextRun where
  text : String
  formatting : TextRunFormatting
  deriving DecidableEq, Repr

/-- `RichParagraph` (src/types/index.ts); the uuid id is omitted. -/
structure RichParagraph where
  text : String
  formatting : ParagraphFormatting
  runs : List RichTextRun
  isHeading : Option Bool := none
  headingLevel : Option ℚ := none
  listLevel : Option ℚ := none
  listType : Option String := none
  deriving DecidableEq, Repr

/-- `RichTableCell` (src/types/index.ts). -/
structure RichTableCell where
  content : List RichParagraph
  colSpan : Option ℚ := none
  rowSpan : Option ℚ := none
  shading : Option String := none
  deriving DecidableEq, Repr

/-- `RichTableRow` (src/types/index.ts). -/
structure RichTableRow where
  cells : List RichTableCell
  height : Option ℚ := none
  isHeader : Option Bool := none
  deriving DecidableEq, Repr

/-- `RichTable` (src/types/index.ts); the uuid id is omitted. -/
structure RichTable where
  rows : List RichTableRow
  columns : ℚ
  style : Option String := none
  deriving DecidableEq, Repr

/-- `RichSection` (src/types/index.ts): a `Section` with optional
paragraph and table lists; a runtime-absent list is `none`, and the
JavaScript truthiness guards on these fields are explicit below. -/
structure RichSection where
  id : String
  number : Option String := none
  title : Option String := none
  level : Nat := 1
  body : String := ""
  paragraphs : Option (List RichParagraph) := none
  tables : Option (List RichTable) := none
  deriving DecidableEq, Repr

/-- Difference categories of `FormattingDifference` (src/types/index.ts). -/
inductive DiffType
  | style
  | font
  | alignment
  | spacing
  | indent
  | list
  | table
  | heading
  deriving DecidableEq, Repr

/-- `FormattingDifference.location`. -/
structure DiffLocation where
  sectionId : String
  paragraphIndex : Option Nat := none
  textSnippet : Option String := none
  deriving DecidableEq, Repr

/-- The `fix.templateFormatting` payloads that actually occur in
`compareSectionFormatting`: either the template paragraph's whole
formatting record, or a one-field partial object copied from the
template. -/
inductive FixPayload
  | paraFormatting (pf : ParagraphFormatting)
  | alignment (v : Option String)
  | spacingAfter (v : Option ℚ)
  | indentLeft (v : Option ℚ)
  | bold (v : Option Bool)
  | italic (v : Option Bool)
  | fontSize (v : Option ℚ)
  | fontFamily (v : Option String)
  deriving DecidableEq, Repr

/-- `FormattingDifference.fix.type`. -/
inductive FixType
  | apply_template_style
  | apply_template_formatting
  | apply_template_font
  deriving DecidableEq, Repr

/-- `FormattingDifference.fix`. -/
structure Fix where
  type : FixType
  templateFormatting : FixPayload
  deriving DecidableEq, Repr

/-- `FormattingDifference` (src/types/index.ts); the uuid id is omitted. -/
structure FormattingDifference where
  type : DiffType
  description : String
  templateValue : String
  draftValue : String
  severity : Severity
  location : DiffLocation
  fix : Option Fix := none
  deriving DecidableEq, Repr

/-- JavaScript truthiness of `number | undefined` (0 is falsy). -/
def truthyNum : Option ℚ → Bool
  | none => false
  | some q => q ≠ 0

/-- JavaScript truthiness of `boolean | undefined`. -/
def truthyBool : Option Bool → Bool
  | none => false
  | some b => b

/-- JavaScript number-to-string for the integral values that occur here. -/
def numStr (q : ℚ) : String := if q.den = 1 then toString q.num else toString q

/-- Template-literal interpolation of a possibly-undefined number. -/
def optNumStr : Option ℚ → String
  | none => "undefined"
  | some q => numStr q

/-- `v || 0` for a possibly-undefined number. -/
def jsNumOrZero : Option ℚ → ℚ
  | none => 0
  | some q => if q = 0 then 0 else q

/-- `v || 'left'` for the alignment strings. -/
def alignOrLeft : Option String → String
  | none => "left"
  | some s => if s = "" then "left" else s

/-- `v || 'default'` for a possibly-undefined string. -/
def strOrDefault : Option String → String
  | none => "default"
  | some s => if s = "" then "default" else s

/-- Template-literal interpolation of a possibly-undefined string. -/
def optStrRaw : Option String → String
  | none => "undefined"
  | some s => s

/-- `v || 'default'` for a possibly-undefined number. -/
def numOrDefault : Option ℚ → String
  | none => "default"
  | some q => if q = 0 then "default" else numStr q

/-- `styleName || styleId || "Normal"` (the `templateValue`/`draftValue`
strings of the style difference). -/
def styleVal (f : ParagraphFormatting) : String :=
  if truthyStr f.styleName then f.styleName.getD ""
  else if truthyStr f.styleId then f.styleId.getD ""
  else "Normal"

/-- Interpolated `${styleName || styleId}` of the style description. -/
def styleNameRaw (f : ParagraphFormatting) : String :=
  if truthyStr f.styleName then f.styleName.getD "" else optStrRaw f.styleId

namespace FormattingAnalyzer

/-- The four run-level comparisons of `compareSectionFormatting`
(src/src/services/formattingAnalyzer.ts): bold, italic, font size
(guarded on a truthy template size), font family (guarded on a truthy
template family).  `i` is the enclosing paragraph index. -/
def compareRunPair (sectionId : String) (i : Nat) (tRun dRun : RichTextRun) :
    List FormattingDifference :=
  (if tRun.formatting.bold ≠ dRun.formatting.bold then
    [{ type := .font,
       description := "Bold formatting differs for \"" ++ jsTake dRun.text 30 ++ "...\"",
       templateValue := if truthyBool tRun.formatting.bold then "Bold" else "Normal",
       draftValue := if truthyBool dRun.formatting.bold then "Bold" else "Normal",
       severity := .medium,
       location := { sectionId := sectionId, paragraphIndex := some i,
                     textSnippet := some (jsTake dRun.text 50) },
       fix := some ⟨.apply_template_font, .bold tRun.formatting.bold⟩ }]
   else [])
  ++ (if tRun.formatting.italic ≠ dRun.formatting.italic then
    [{ type := .font,
       description := "Italic formatting differs for \"" ++ jsTake dRun.text 30 ++ "...\"",
       templateValue := if truthyBool tRun.formatting.italic then "Italic" else "Normal",
       draftValue := if truthyBool dRun.formatting.italic then "Italic" else "Normal",
       severity := .medium,
       location := { sectionId := sectionId, paragraphIndex := some i,
                     textSnippet := some (jsTake dRun.text 50) },
       fix := some ⟨.apply_template_font, .italic tRun.formatting.italic⟩ }]
   else [])
  ++ (if tRun.formatting.fontSize ≠ dRun.formatting.fontSize ∧
        truthyNum tRun.formatting.fontSize then
    [{ type := .font,
       description := "Font size differs: " ++ optNumStr tRun.formatting.fontSize ++
         "pt in template vs " ++ numOrDefault dRun.formatting.fontSize ++ "pt in draft",
       templateValue := optNumStr tRun.formatting.fontSize ++ "pt",
       draftValue := numOrDefault dRun.formatting.fontSize ++ "pt",
       severity := .high,
       location := { sectionId := sectionId, paragraphIndex := some i,
                     textSnippet := some (jsTake dRun.text 50) },
       fix := some ⟨.apply_template_font, .fontSize tRun.formatting.fontSize⟩ }]
   else [])
  ++ (if tRun.formatting.fontFamily ≠ dRun.formatting.fontFamily ∧
        truthyStr tRun.formatting.fontFamily then
    [{ type := .font,
       description := "Font family differs: \"" ++ optStrRaw tRun.formatting.fontFamily ++
         "\" in template vs \"" ++ strOrDefault dRun.formatting.fontFamily ++ "\" in draft",
       templateValue := tRun.formatting.fontFamily.getD "",
       draftValue := strOrDefault dRun.formatting.fontFamily,
       severity := .high,
       location := { sectionId := sectionId, paragraphIndex := some i,
                     textSnippet := some (jsTake dRun.text 50) },
       fix := some ⟨.apply_template_font, .fontFamily tRun.formatting.fontFamily⟩ }]
   else [])

/-- The five paragraph-level comparisons at index `i` plus the positional
run loop up to the shorter run list. -/
def compareParaPair (sectionId : String) (i : Nat) (tPara dPara : RichParagraph) :
    List FormattingDifference :=
  (if tPara.formatting.alignment ≠ dPara.formatting.alignment then
    [{ type := .alignment,
       description := "Paragraph alignment differs: \"" ++
         alignOrLeft tPara.formatting.alignment ++ "\" in template vs \"" ++
         alignOrLeft dPara.formatting.alignment ++ "\" in draft",
       templateValue := alignOrLeft tPara.formatting.alignment,
       draftValue := alignOrLeft dPara.formatting.alignment,
       severity := .medium,
       location := { sectionId := sectionId, paragraphIndex := some i,
                     textSnippet := some (jsTake dPara.text 50) },
       fix := some ⟨.apply_template_formatting, .alignment tPara.formatting.alignment⟩ }]
   else [])
  ++ (if tPara.formatting.styleId ≠ dPara.formatting.styleId ∧
        truthyStr tPara.formatting.styleId then
    [{ type := .style,
       description := "Paragraph style differs: \"" ++ styleNameRaw tPara.formatting ++
         "\" in template vs \"" ++ styleVal dPara.formatting ++ "\" in draft",
       templateValue := styleVal tPara.formatting,
       draftValue := styleVal dPara.formatting,
       severity := .high,
       location := { sectionId := sectionId, paragraphIndex := some i,
                     textSnippet := some (jsTake dPara.text 50) },
       fix := some ⟨.apply_template_style, .paraFormatting tPara.formatting⟩ }]
   else [])
  ++ (if tPara.formatting.spacingAfter ≠ dPara.formatting.spacingAfter ∧
        truthyNum tPara.formatting.spacingAfter then
    [{ type := .spacing,
       description := "Paragraph spacing after differs",
       templateValue := optNumStr tPara.formatting.spacingAfter,
       draftValue := numStr (jsNumOrZero dPara.formatting.spacingAfter),
       severity := .low,
       location := { sectionId := sectionId, paragraphIndex := some i,
                     textSnippet := some (jsTake dPara.text 50) },
       fix := some ⟨.apply_template_formatting, .spacingAfter tPara.formatting.spacingAfter⟩ }]
   else [])
  ++ (if tPara.formatting.indentLeft ≠ dPara.formatting.indentLeft ∧
        truthyNum tPara.formatting.indentLeft then
    [{ type := .indent,
       description := "Left indentation differs",
       templateValue := optNumStr tPara.formatting.indentLeft,
       draftValue := numStr (jsNumOrZero dPara.formatting.indentLeft),
       severity := .low,
       location := { sectionId := sectionId, paragraphIndex := some i,
                     textSnippet := some (jsTake dPara.text 50) },
       fix := some ⟨.apply_template_formatting, .indentLeft tPara.formatting.indentLeft⟩ }]
   else [])
  ++ (if (tPara.isHeading ≠ dPara.isHeading ∨ tPara.headingLevel ≠ dPara.headingLevel) ∧
        truthyBool tPara.isHeading then
    [{ type := .heading,
       description := "Heading level differs: Level " ++ optNumStr tPara.headingLevel ++
         " in template vs " ++
         (if truthyBool dPara.isHeading then "Level " ++ optNumStr dPara.headingLevel
          else "not a heading") ++ " in draft",
       templateValue := "Heading " ++ optNumStr tPara.headingLevel,
       draftValue := if truthyBool dPara.isHeading then
           "Heading " ++ optNumStr dPara.headingLevel
         else "Normal",
       severity := .high,
       location := { sectionId := sectionId, paragraphIndex := some i,
                     textSnippet := some (jsTake dPara.text 50) },
       fix := some ⟨.apply_template_style, .paraFormatting tPara.formatting⟩ }]
   else [])
  ++ (tPara.runs.zip dPara.runs).flatMap (fun rp => compareRunPair sectionId i rp.1 rp.2)

/-- `compareSectionFormatting` (src/src/services/formattingAnalyzer.ts):
empty on a null template or a missing paragraph list; otherwise the
positional paragraph walk up to the shorter list, then the section-level
table-count check (which carries no fix). -/
def compareSectionFormatting (templateSection : Option RichSection)
    (draftSection : RichSection) : List FormattingDifference :=
  match templateSection with
  | none => []
  | some t =>
      match t.paragraphs, draftSection.paragraphs with
      | some templateParas, some draftParas =>
          ((templateParas.zip draftParas).enum.flatMap
            (fun ip => compareParaPair draftSection.id ip.1 ip.2.1 ip.2.2))
          ++ (match t.tables, draftSection.tables with
              | some tTables, some dTables =>
                  if tTables.length ≠ dTables.length then
                    [{ type := .table,
                       description := "Table count differs: " ++ toString tTables.length ++
                         " in template vs " ++ toString dTables.length ++ " in draft",
                       templateValue := toString tTables.length ++ " tables",
                       draftValue := toString dTables.length ++ " tables",
                       severity := .high,
                       location := { sectionId := draftSection.id },
                       fix := none }]
                  else []
              | _, _ => [])
      | _, _ => []

end FormattingAnalyzer

namespace OpenaiAnalyzer

/-- `IssueCategory` (src/types/index.ts). -/
inductive IssueCategory
  | legal_risk
  | financial
  | deliverables_scope
  | language_clarity
  | formatting_structure
  deriving DecidableEq, Repr

/-- `mapIssueCategory` (src/src/services/openaiAnalyzer.ts):
`mapping[category] || "deliverables_scope"`. -/
def mapIssueCategory (category : String) : IssueCategory :=
  if category = "legal_risk" then .legal_risk
  else if category = "financial" then .financial
  else if category = "deliverables_scope" then .deliverables_scope
  else if category = "language_clarity" then .language_clarity
  else if category = "formatting_structure" then .formatting_structure
  else .deliverables_scope

/-- One issue of the parsed model response (the JSON schema's fields). -/
structure RawIssue where
  type : String
  severity : Severity
  description : String
  old_text_snippet : Option String := none
  new_text_snippet : Option String := none
  suggested_revision : Option String := none
  category : String
  deriving DecidableEq, Repr

/-- A successfully parsed section-analysis response body. -/
structure ParsedSectionResponse where
  severity_overall : Severity
  issues : List RawIssue
  suggested_revision : Option String := none
  notes_for_legal_review : Option (List String) := none
  deriving DecidableEq, Repr

/-- `Issue` (src/types/index.ts); the uuid id is omitted. -/
structure Issue where
  type : String
  severity : Severity
  sectionId : String
  description : String
  oldTextSnippet : Option String := none
  newTextSnippet : Option String := none
  suggestedRevision : Option String := none
  category : IssueCategory
  deriving DecidableEq, Repr

/-- `SectionAnalysis` (src/types/index.ts). -/
structure SectionAnalysis where
  sectionId : String
  matchedOldSectionId : Option String := none
  severityOverall : Severity
  issues : List Issue
  suggestedRevision : Option String := none
  notesForLegalReview : List String
  deriving DecidableEq, Repr

/-- `analyzeSectionPair` (src/src/services/openaiAnalyzer.ts).  The model
call and JSON parse inside the try block are passed in as `callResult`:
`.ok` is a transport success with a schema-conforming body, `.error`
stands for any thrown failure (network error, missing content, JSON.parse
throw, missing `issues` array).  The catch block returns the neutral
result: severity "low", no issues. -/
def analyzeSectionPair (templateSection : Option Section) (newSection : Section)
    (callResult : Except String ParsedSectionResponse) : SectionAnalysis :=
  match callResult with
  | .ok parsed =>
      { sectionId := newSection.id,
        matchedOldSectionId := templateSection.map (fun s => s.id),
        severityOverall := parsed.severity_overall,
        issues := parsed.issues.map (fun issue =>
          { type := issue.type,
            severity := issue.severity,
            sectionId := newSection.id,
            description := issue.description,
            oldTextSnippet := issue.old_text_snippet,
            newTextSnippet := issue.new_text_snippet,
            suggestedRevision := issue.suggested_revision,
            category := mapIssueCategory issue.category }),
        suggestedRevision := parsed.suggested_revision,
        notesForLegalReview := parsed.notes_for_legal_review.getD [] }
  | .error _ =>
      { sectionId := newSection.id,
        matchedOldSectionId := templateSection.map (fun s => s.id),
        severityOverall := .low,
        issues := [],
        suggestedRevision := none,
        notesForLegalReview := [] }

/-- The per-section loop of `analyzeSOWs`: every draft section is analyzed
with its matched template section (precomputed here as the pair list) and
the per-call outcomes passed explicitly; a failed call yields the neutral
entry without stopping the surrounding batch. -/
def analyzeSectionBatch (pairs : List (Option Section × Section))
    (callResults : List (Except String ParsedSectionResponse)) :
    List SectionAnalysis :=
  (pairs.zip callResults).map (fun pr => analyzeSectionPair pr.1.1 pr.1.2 pr.2)

end OpenaiAnalyzer

/-- The level rule exactly as the specification words it (spec §4.2 step 5):
count of '.' characters + 1 for dotted tokens; 1 for roman numerals; 2 for
single letters; 3 for parenthetical tokens; 1 otherwise. -/
def specLevelRule (s : String) : Nat :=
  if 0 < countDots s then countDots s + 1
  else if isRomanToken s then 1
  else if isSingleLetterToken s then 2
  else if isParenToken s then 3
  else 1

/-- The trimmed non-header paragraphs of a paragraph list, as seen by the
HTML-variant segmenter: non-empty trim and no detected header.  The spec's
partition invariant P1 says the section bodies concatenate to exactly this
list. -/
def htmlNonHeaderParas (paras : List String) : List String :=
  paras.filterMap (fun p =>
    if jsTrim p ≠ "" ∧ DocxParser.detectSectionHeader (jsTrim p) = none
    then some (jsTrim p) else none)

/-- The trimmed non-header paragraphs of an input text, as seen by the
plain-text segmenter of part_005 (a paragraph is a header only when it is
under 200 characters and parses as a section). -/
def sowNonHeaderParas (text : String) : List String :=
  (SowParser.splitParas text).filterMap (fun p =>
    if jsTrim p ≠ "" ∧
        (if (jsTrim p).length < 200
         then SowParser.parseParagraphAsSection (jsTrim p) else none) = none
    then some (jsTrim p) else none)

/-- A fix payload drawn from a given template text run: the copied
attribute equals that run's attribute. -/
def payloadFromRun (tr : RichTextRun) (f : Fix) : Prop :=
  match f.templateFormatting with
  | .bold v => v = tr.formatting.bold
  | .italic v => v = tr.formatting.italic
  | .fontSize v => v = tr.formatting.fontSize
  | .fontFamily v => v = tr.formatting.fontFamily
  | _ => False

/-- A fix payload drawn from a given template paragraph: the whole
template formatting record, one of its paragraph attributes, or an
attribute of one of its runs. -/
def payloadFromPara (tp : RichParagraph) (f : Fix) : Prop :=
  match f.templateFormatting with
  | .paraFormatting pf => pf = tp.formatting
  | .alignment v => v = tp.formatting.alignment
  | .spacingAfter v => v = tp.formatting.spacingAfter
  | .indentLeft v => v = tp.formatting.indentLeft
  | .bold v => ∃ tr ∈ tp.runs, v = tr.formatting.bold
  | .italic v => ∃ tr ∈ tp.runs, v = tr.formatting.italic
  | .fontSize v => ∃ tr ∈ tp.runs, v = tr.formatting.fontSize
  | .fontFamily v => ∃ tr ∈ tp.runs, v = tr.formatting.fontFamily

/-- P6 formalized: a difference either carries no fix, or its fix payload
is copied verbatim from the template paragraph at the difference's recorded
paragraph index (or from one of that paragraph's runs). -/
def fixFromTemplate (tParas : List RichParagraph) (d : FormattingDifference) : Prop :=
  match d.fix with
  | none => True
  | some f =>
      ∃ i tp, d.location.paragraphIndex = some i ∧ tParas[i]? = some tp ∧
        payloadFromPara tp f

/-- The concrete P6 scenario's template paragraph: one run, bold with font
size 11. -/
def c6TemplatePara : RichParagraph :=
  { text := "Sample text", formatting := {},
    runs := [{ text := "Sample text",
               formatting := { bold := some true, fontSize := some 11 } }] }

/-- The concrete P6 scenario's draft paragraph: the same run but not bold. -/
def c6DraftPara : RichParagraph :=
  { text := "Sample text", formatting := {},
    runs := [{ text := "Sample text",
               formatting := { bold := some false, fontSize := some 11 } }] }

/-- The concrete P6 scenario's template section. -/
def c6Template : RichSection :=
  { id := "t1", paragraphs := some [c6TemplatePara], tables := some [] }

/-- The concrete P6 scenario's draft section. -/
def c6Draft : RichSection :=
  { id := "d1", paragraphs := some [c6DraftPara], tables := some [] }

/-- The single difference the P6 scenario is expected to produce: type
font, severity medium, fix payload bold := true copied from the template
run. -/
def c6ExpectedDiff : FormattingDifference :=
  { type := .font,
    description := "Bold formatting differs for \"Sample text...\"",
    templateValue := "Bold",
    draftValue := "Normal",
    severity := .medium,
    location := { sectionId := "d1", paragraphIndex := some 0,
                  textSnippet := some "Sample text" },
    fix := some ⟨.apply_template_font, .bold (some true)⟩ }

/-! ### Lemmas about the token-set similarity -/

theorem inter_filter_card_comm (s t : Finset String) :
    (s.filter (fun w => w ∈ t)).card = (t.filter (fun w => w ∈ s)).card := by
  rw [Finset.filter_mem_eq_inter, Finset.filter_mem_eq_inter, Finset.inter_comm]

theorem div_201 (u : ℕ) (hu : 0 < u) : (201 * u) / (2 * u) = 100 := by
  have h : 201 * u = u + 2 * u * 100 := by ring
  rw [h, Nat.add_mul_div_left _ _ (by omega), Nat.div_eq_of_lt (by omega)]

theorem simdiv_le_hundred (i u : ℕ) (hi : i ≤ u) (hu : 0 < u) :
    (200 * i + u) / (2 * u) ≤ 100 := by
  have h1 : 200 * i + u ≤ 201 * u := by nlinarith
  calc (200 * i + u) / (2 * u) ≤ (201 * u) / (2 * u) := Nat.div_le_div_right h1
    _ = 100 := div_201 u hu

theorem simdiv_eq_round (i u : ℕ) (hu : 0 < u) :
    (200 * i + u) / (2 * u) = DiffUtils.roundHalfUp ((100 * (i : ℚ)) / (u : ℚ)) := by
  unfold DiffUtils.roundHalfUp
  have huQ : (u : ℚ) ≠ 0 := Nat.cast_ne_zero.mpr hu.ne'
  have h : (100 * (i : ℚ)) / (u : ℚ) + 1 / 2 =
      ((200 * i + u : ℕ) : ℚ) / ((2 * u : ℕ) : ℚ) := by
    push_cast
    field_simp
    ring
  rw [h, Nat.floor_div_nat, Nat.floor_natCast]

theorem tokenize_toFinset_nonempty {a : String} (h : DiffUtils.tokenize a ≠ []) :
    (DiffUtils.tokenize a).toFinset.Nonempty := by
  cases hl : DiffUtils.tokenize a with
  | nil => exact absurd hl h
  | cons x xs => exact ⟨x, by simp [hl]⟩

theorem calculateSimilarity_le_hundred (a b : String) :
    DiffUtils.calculateSimilarity a b ≤ 100 := by
  unfold DiffUtils.calculateSimilarity
  dsimp only
  split_ifs with h1 h2 h3 h4
  · exact le_refl 100
  · exact Nat.zero_le 100
  · exact le_refl 100
  · exact Nat.zero_le 100
  · push_neg at h4
    have hu : 0 < ((DiffUtils.tokenize a).toFinset ∪ (DiffUtils.tokenize b).toFinset).card :=
      Finset.card_pos.mpr ((tokenize_toFinset_nonempty h4.1).inl)
    have hi : ((DiffUtils.tokenize a).toFinset.filter
        (fun w => w ∈ (DiffUtils.tokenize b).toFinset)).card ≤
        ((DiffUtils.tokenize a).toFinset ∪ (DiffUtils.tokenize b).toFinset).card :=
      Finset.card_le_card
        ((Finset.filter_subset _ _).trans Finset.subset_union_left)
    exact simdiv_le_hundred _ _ hi hu

theorem calculateSimilarity_self (s : String) :
    DiffUtils.calculateSimilarity s s = 100 := by
  unfold DiffUtils.calculateSimilarity
  dsimp only
  split_ifs with h1 h2 h3 h4
  · rfl
  · rcases h2 with h | h <;> exact absurd ⟨h, h⟩ h1
  · rfl
  · rcases h4 with h | h <;> exact absurd ⟨h, h⟩ h3
  · push_neg at h4
    rw [Finset.filter_mem_eq_inter, Finset.inter_self, Finset.union_self]
    have hc : 0 < (DiffUtils.tokenize s).toFinset.card :=
      Finset.card_pos.mpr (tokenize_toFinset_nonempty h4.1)
    have h : 200 * (DiffUtils.tokenize s).toFinset.card +
        (DiffUtils.tokenize s).toFinset.card =
        201 * (DiffUtils.tokenize s).toFinset.card := by ring
    rw [h, div_201 _ hc]

theorem calculateSimilarity_empty_left {s : String} (hs : s ≠ "") :
    DiffUtils.calculateSimilarity "" s = 0 := by
  unfold DiffUtils.calculateSimilarity
  dsimp only
  rw [if_neg (fun h => hs h.2), if_pos (Or.inl rfl)]

theorem calculateSimilarity_empty_right {s : String} (hs : s ≠ "") :
    DiffUtils.calculateSimilarity s "" = 0 := by
  unfold DiffUtils.calculateSimilarity
  dsimp only
  rw [if_neg (fun h => hs h.1), if_pos (Or.inr rfl)]

theorem calculateSimilarity_tok_empty {a b : String} (ha : a ≠ "") (hb : b ≠ "")
    (h1 : DiffUtils.tokenize a = []) (h2 : DiffUtils.tokenize b = []) :
    DiffUtils.calculateSimilarity a b = 100 := by
  unfold DiffUtils.calculateSimilarity
  dsimp only
  rw [if_neg (fun h => ha h.1), if_neg (fun h => (by rcases h with h | h <;> simp_all : False)),
    if_pos ⟨h1, h2⟩]

theorem calculateSimilarity_round_formula (a b : String) (ha : a ≠ "") (hb : b ≠ "")
    (hw : DiffUtils.tokenize a ≠ [] ∨ DiffUtils.tokenize b ≠ []) :
    DiffUtils.calculateSimilarity a b =
      DiffUtils.roundHalfUp ((100 *
          ((((DiffUtils.tokenize a).toFinset ∩ (DiffUtils.tokenize b).toFinset).card : ℚ))) /
        ((((DiffUtils.tokenize a).toFinset ∪ (DiffUtils.tokenize b).toFinset).card : ℚ))) := by
  unfold DiffUtils.calculateSimilarity
  dsimp only
  split_ifs with h1 h2 h3 h4
  · exact absurd h1.1 ha
  · rcases h2 with h | h
    · exact absurd h ha
    · exact absurd h hb
  · rcases hw with h | h
    · exact absurd h3.1 h
    · exact absurd h3.2 h
  · rcases h4 with h | h
    · rw [h]
      simp only [List.toFinset_nil, Finset.empty_inter, Finset.card_empty, Nat.cast_zero,
        mul_zero, zero_div]
      unfold DiffUtils.roundHalfUp
      rw [zero_add, Nat.floor_eq_zero.mpr (by norm_num)]
    · rw [h]
      simp only [List.toFinset_nil, Finset.inter_empty, Finset.card_empty, Nat.cast_zero,
        mul_zero, zero_div]
      unfold DiffUtils.roundHalfUp
      rw [zero_add, Nat.floor_eq_zero.mpr (by norm_num)]
  · push_neg at h4
    rw [Finset.filter_mem_eq_inter]
    exact simdiv_eq_round _ _
      (Finset.card_pos.mpr ((tokenize_toFinset_nonempty h4.1).inl))

/-- C5: the token-set similarity is always in [0,100] (values are naturals,
so the lower bound is inherent); similarity(s, s) = 100 for any non-empty s;
similarity("", "") = 100; similarity("", nonempty) = 0; and whenever the two
lower-cased whitespace token sets are not both empty, the value equals
round(100 × |intersection| / |union|) over those sets, rounding half up. -/
theorem similarity_bounds_spec :
    (∀ a b : String, DiffUtils.calculateSimilarity a b ≤ 100) ∧
    (∀ s : String, s ≠ "" → DiffUtils.calculateSimilarity s s = 100) ∧
    DiffUtils.calculateSimilarity "" "" = 100 ∧
    (∀ s : String, s ≠ "" → DiffUtils.calculateSimilarity "" s = 0) ∧
    (∀ a b : String, a ≠ "" → b ≠ "" →
      (DiffUtils.tokenize a ≠ [] ∨ DiffUtils.tokenize b ≠ []) →
      DiffUtils.calculateSimilarity a b =
        DiffUtils.roundHalfUp ((100 *
            ((((DiffUtils.tokenize a).toFinset ∩ (DiffUtils.tokenize b).toFinset).card : ℚ))) /
          ((((DiffUtils.tokenize a).toFinset ∪ (DiffUtils.tokenize b).toFinset).card : ℚ)))) :=
  ⟨calculateSimilarity_le_hundred,
   fun s _ => calculateSimilarity_self s,
   rfl,
   fun _ hs => calculateSimilarity_empty_left hs,
   calculateSimilarity_round_formula⟩

/-- C5 witness: the bounds and formula evaluated at concrete inputs
("scope of work" vs "scope of services": 2 shared tokens of 4,
round(50) = 50). -/
theorem similarity_bounds_spec_witness :
    DiffUtils.calculateSimilarity "scope of work" "scope of services" ≤ 100 ∧
    DiffUtils.calculateSimilarity "Payment Terms" "Payment Terms" = 100 ∧
    DiffUtils.calculateSimilarity "" "x" = 0 ∧
    DiffUtils.calculateSimilarity "scope of work" "scope of services" =
      DiffUtils.roundHalfUp ((100 *
          ((((DiffUtils.tokenize "scope of work").toFinset ∩
              (DiffUtils.tokenize "scope of services").toFinset).card : ℚ))) /
        ((((DiffUtils.tokenize "scope of work").toFinset ∪
            (DiffUtils.tokenize "scope of services").toFinset).card : ℚ))) :=
  ⟨similarity_bounds_spec.1 "scope of work" "scope of services",
   similarity_bounds_spec.2.1 "Payment Terms" (by decide),
   similarity_bounds_spec.2.2.2.1 "x" (by decide),
   similarity_bounds_spec.2.2.2.2 "scope of work" "scope of services"
     (by decide) (by decide) (Or.inl (by decide))⟩

/-- C9: the token-set similarity function is symmetric in its two
arguments. -/
theorem calculateSimilarity_comm (a b : String) :
    DiffUtils.calculateSimilarity a b = DiffUtils.calculateSimilarity b a := by
  by_cases ha : a = ""
  · by_cases hb : b = ""
    · rw [ha, hb]
    · rw [ha, calculateSimilarity_empty_left hb, calculateSimilarity_empty_right hb]
  · by_cases hb : b = ""
    · rw [hb, calculateSimilarity_empty_right ha, calculateSimilarity_empty_left ha]
    · by_cases hw1 : DiffUtils.tokenize a = []
      · by_cases hw2 : DiffUtils.tokenize b = []
        · rw [calculateSimilarity_tok_empty ha hb hw1 hw2,
            calculateSimilarity_tok_empty hb ha hw2 hw1]
        · rw [calculateSimilarity_round_formula a b ha hb (Or.inr hw2),
            calculateSimilarity_round_formula b a hb ha (Or.inl hw2),
            Finset.inter_comm, Finset.union_comm]
      · rw [calculateSimilarity_round_formula a b ha hb (Or.inl hw1),
          calculateSimilarity_round_formula b a hb ha (Or.inr hw1),
          Finset.inter_comm, Finset.union_comm]

/-! ### Lemmas about the greedy best-candidate loop -/

/-- The loop either leaves the accumulator untouched or returns some
not-yet-claimed template from the list together with its score. -/
theorem bestLoop_cases (used : List String) (score : Section → ℚ)
    (ts : List Section) (acc : Option Section × ℚ) :
    bestLoop used score ts acc = acc ∨
      ∃ t, t ∈ ts ∧ t.id ∉ used ∧
        bestLoop used score ts acc = (some t, score t) := by
  induction ts generalizing acc with
  | nil => exact Or.inl rfl
  | cons u ts ih =>
      simp only [bestLoop]
      by_cases hu : u.id ∈ used
      · rw [if_pos hu]
        rcases ih acc with h | ⟨t, ht, hnu, h⟩
        · exact Or.inl h
        · exact Or.inr ⟨t, List.mem_cons_of_mem _ ht, hnu, h⟩
      · rw [if_neg hu]
        by_cases hlt : acc.2 < score u
        · rw [if_pos hlt]
          rcases ih (some u, score u) with h | ⟨t, ht, hnu, h⟩
          · exact Or.inr ⟨u, List.mem_cons_self _ _, hu, h⟩
          · exact Or.inr ⟨t, List.mem_cons_of_mem _ ht, hnu, h⟩
        · rw [if_neg hlt]
          rcases ih acc with h | ⟨t, ht, hnu, h⟩
          · exact Or.inl h
          · exact Or.inr ⟨t, List.mem_cons_of_mem _ ht, hnu, h⟩

/-- The best score never decreases along the loop. -/
theorem bestLoop_le (used : List String) (score : Section → ℚ)
    (ts : List Section) (acc : Option Section × ℚ) :
    acc.2 ≤ (bestLoop used score ts acc).2 := by
  induction ts generalizing acc with
  | nil => exact le_refl _
  | cons u ts ih =>
      simp only [bestLoop]
      by_cases hu : u.id ∈ used
      · rw [if_pos hu]; exact ih acc
      · rw [if_neg hu]
        by_cases hlt : acc.2 < score u
        · rw [if_pos hlt]
          exact le_trans (le_of_lt hlt) (ih (some u, score u))
        · rw [if_neg hlt]; exact ih acc

/-- The final best score dominates every unclaimed candidate's score. -/
theorem bestLoop_max (used : List String) (score : Section → ℚ)
    (ts : List Section) (acc : Option Section × ℚ) (t : Section)
    (ht : t ∈ ts) (hnu : t.id ∉ used) :
    score t ≤ (bestLoop used score ts acc).2 := by
  induction ts generalizing acc with
  | nil => exact absurd ht (List.not_mem_nil t)
  | cons u ts ih =>
      simp only [bestLoop]
      rcases List.mem_cons.mp ht with rfl | hmem
      · rw [if_neg hnu]
        by_cases hlt : acc.2 < score t
        · rw [if_pos hlt]
          exact bestLoop_le used score ts (some t, score t)
        · rw [if_neg hlt]
          exact le_trans (not_lt.mp hlt) (bestLoop_le used score ts acc)
      · by_cases hu : u.id ∈ used
        · rw [if_pos hu]; exact ih acc hmem
        · rw [if_neg hu]
          by_cases hlt : acc.2 < score u
          · rw [if_pos hlt]; exact ih (some u, score u) hmem
          · rw [if_neg hlt]; exact ih acc hmem

/-- Accepting through a confidence floor (the common tail of the two
claimed-set aligner steps): a successful pick is an unclaimed listed
candidate whose score reaches the floor and dominates every unclaimed
candidate. -/
theorem floor_accept (used : List String) (sc : Section → ℚ) (fl : ℚ)
    (templates : List Section) (t : Section)
    (h : (match (bestLoop used sc templates (none, 0)).1 with
          | some u => if fl ≤ (bestLoop used sc templates (none, 0)).2 then some u else none
          | none => none) = some t) :
    t ∈ templates ∧ t.id ∉ used ∧ fl ≤ sc t ∧
      ∀ u ∈ templates, u.id ∉ used → sc u ≤ sc t := by
  rcases bestLoop_cases used sc templates (none, 0) with hc | ⟨v, hv, hnv, hc⟩
  · rw [hc] at h
    exact absurd h (by simp)
  · rw [hc] at h
    simp only at h
    by_cases hfl : fl ≤ sc v
    · rw [if_pos hfl] at h
      cases h
      refine ⟨hv, hnv, hfl, ?_⟩
      intro u hu hnu
      have := bestLoop_max used sc templates (none, 0) u hu hnu
      rw [hc] at this
      exact this
    · rw [if_neg hfl] at h
      exact absurd h (by simp)

/-- Rejecting through a confidence floor: when every unclaimed candidate
scores below the floor, the draft section is mapped to null. -/
theorem floor_reject (used : List String) (sc : Section → ℚ) (fl : ℚ)
    (templates : List Section)
    (h : ∀ u ∈ templates, u.id ∉ used → sc u < fl) :
    (match (bestLoop used sc templates (none, 0)).1 with
      | some u => if fl ≤ (bestLoop used sc templates (none, 0)).2 then some u else none
      | none => none) = none := by
  rcases bestLoop_cases used sc templates (none, 0) with hc | ⟨v, hv, hnv, hc⟩
  · rw [hc]
  · rw [hc]
    simp only
    rw [if_neg (not_le.mpr (h v hv hnv))]

/-- Two alignment-map entries that do not share a non-null template id. -/
def NoSharedTemplate (p q : String × Option String) : Prop :=
  ∀ a, p.2 = some a → q.2 ≠ some a

/-- Invariant of the greedy alignment folds of `sectionPairs` and
`sectionMatches`: as long as the step function only returns templates whose
id is not yet claimed, every recorded non-null template id is claimed and
no two entries share one. -/
theorem greedy_fold_pairwise
    (stepf : List String → Section → Option Section)
    (hstep : ∀ used d t, stepf used d = some t → t.id ∉ used)
    (drafts : List Section) (used0 : List String)
    (out0 : List (String × Option String))
    (hout : ∀ p ∈ out0, ∀ a, p.2 = some a → a ∈ used0)
    (hpw : List.Pairwise NoSharedTemplate out0) :
    (∀ p ∈ (drafts.foldl (fun st d =>
        match stepf st.1 d with
        | some t => (t.id :: st.1, st.2 ++ [(d.id, some t.id)])
        | none => (st.1, st.2 ++ [(d.id, none)])) (used0, out0)).2,
      ∀ a, p.2 = some a → a ∈ (drafts.foldl (fun st d =>
        match stepf st.1 d with
        | some t => (t.id :: st.1, st.2 ++ [(d.id, some t.id)])
        | none => (st.1, st.2 ++ [(d.id, none)])) (used0, out0)).1) ∧
    List.Pairwise NoSharedTemplate (drafts.foldl (fun st d =>
        match stepf st.1 d with
        | some t => (t.id :: st.1, st.2 ++ [(d.id, some t.id)])
        | none => (st.1, st.2 ++ [(d.id, none)])) (used0, out0)).2 := by
  induction drafts generalizing used0 out0 with
  | nil => exact ⟨hout, hpw⟩
  | cons d ds ih =>
      simp only [List.foldl_cons]
      cases hstep0 : stepf used0 d with
      | some t =>
          apply ih (t.id :: used0) (out0 ++ [(d.id, some t.id)])
          · intro p hp a hpa
            rcases List.mem_append.mp hp with hmem | hmem
            · exact List.mem_cons_of_mem _ (hout p hmem a hpa)
            · rcases List.mem_singleton.mp hmem with rfl
              cases hpa
              exact List.mem_cons_self _ _
          · rw [List.pairwise_append]
            refine ⟨hpw, List.pairwise_singleton _ _, ?_⟩
            intro p hp q hq
            rcases List.mem_singleton.mp hq with rfl
            intro a hpa hqe
            cases hqe
            exact hstep used0 d t hstep0 (hout p hp t.id hpa)
      | none =>
          apply ih used0 (out0 ++ [(d.id, none)])
          · intro p hp a hpa
            rcases List.mem_append.mp hp with hmem | hmem
            · exact hout p hmem a hpa
            · rcases List.mem_singleton.mp hmem with rfl
              cases hpa
          · rw [List.pairwise_append]
            refine ⟨hpw, List.pairwise_singleton _ _, ?_⟩
            intro p hp q hq
            rcases List.mem_singleton.mp hq with rfl
            intro a hpa hqe
            cases hqe

/-- C1 counterexample: the `matchSections` variant (docxParser.ts) tracks no
claimed set, so two distinct draft sections that both carry number "1" and
title "A" are both mapped to the single template section "t1": the returned
map is not injective on its non-null values for that variant. -/
theorem matchSections_shares_template :
    DocxParser.matchSections [⟨"t1", some "1", some "A", 1, ""⟩]
        [⟨"d1", some "1", some "A", 1, ""⟩, ⟨"d2", some "1", some "A", 1, ""⟩] =
      [("d1", some "t1"), ("d2", some "t1")] ∧
    ¬ List.Pairwise NoSharedTemplate
        (DocxParser.matchSections [⟨"t1", some "1", some "A", 1, ""⟩]
          [⟨"d1", some "1", some "A", 1, ""⟩, ⟨"d2", some "1", some "A", 1, ""⟩]) := by
  have heval : DocxParser.matchSections [⟨"t1", some "1", some "A", 1, ""⟩]
      [⟨"d1", some "1", some "A", 1, ""⟩, ⟨"d2", some "1", some "A", 1, ""⟩] =
      [("d1", some "t1"), ("d2", some "t1")] := by
    simp [DocxParser.matchSections, bestLoop, DocxParser.matchScore]
    norm_num
    decide
  refine ⟨heval, ?_⟩
  rw [heval]
  intro hpw
  have h1 := (List.pairwise_cons.mp hpw).1 ("d2", some "t1") (List.mem_singleton_self _)
  exact absurd rfl (h1 "t1" rfl)

/-- C1 (amended): the two aligner variants that track a claimed-template
set — `sectionPairs` (ComparisonView.tsx) and `sectionMatches`
(ReviewDashboard.tsx) — never map two entries of the returned list to the
same non-null template id; the `matchSections` variant in docxParser.ts
does not claim templates and lacks this property. -/
theorem claimed_variants_injective (templateSections draftSections : List Section) :
    List.Pairwise NoSharedTemplate
      (ComparisonView.sectionPairs templateSections draftSections) ∧
    List.Pairwise NoSharedTemplate
      (ReviewDashboard.sectionMatches templateSections draftSections) := by
  constructor
  · have h := greedy_fold_pairwise
      (fun used d => ComparisonView.alignStep used templateSections d)
      (fun used d t hs =>
        (floor_accept used (ComparisonView.pairScore d) 30 templateSections t hs).2.1)
      draftSections [] [] (fun p hp => absurd hp (List.not_mem_nil p))
      List.Pairwise.nil
    exact h.2
  · have h := greedy_fold_pairwise
      (fun used d => ReviewDashboard.alignStep used templateSections d)
      (fun used d t hs =>
        (floor_accept used (ReviewDashboard.matchScore d) 40 templateSections t hs).2.1)
      draftSections [] [] (fun p hp => absurd hp (List.not_mem_nil p))
      List.Pairwise.nil
    exact h.2

/-- C2: in both claimed-set aligner variants a draft section is matched
only to a still-unclaimed, listed template whose score meets the variant's
confidence floor (30 for the comparison view, 40 for the review dashboard)
and dominates every other unclaimed candidate's score; and when every
unclaimed candidate scores below the floor, the draft section maps to
null. -/
theorem aligner_floor_spec :
    (∀ (used : List String) (templateSections : List Section) (draftSection t : Section),
      ComparisonView.alignStep used templateSections draftSection = some t →
        t ∈ templateSections ∧ t.id ∉ used ∧
        30 ≤ ComparisonView.pairScore draftSection t ∧
        ∀ u ∈ templateSections, u.id ∉ used →
          ComparisonView.pairScore draftSection u ≤ ComparisonView.pairScore draftSection t) ∧
    (∀ (used : List String) (templateSections : List Section) (draftSection : Section),
      (∀ u ∈ templateSections, u.id ∉ used →
        ComparisonView.pairScore draftSection u < 30) →
      ComparisonView.alignStep used templateSections draftSection = none) ∧
    (∀ (used : List String) (templateSections : List Section) (draftSection t : Section),
      ReviewDashboard.alignStep used templateSections draftSection = some t →
        t ∈ templateSections ∧ t.id ∉ used ∧
        40 ≤ ReviewDashboard.matchScore draftSection t ∧
        ∀ u ∈ templateSections, u.id ∉ used →
          ReviewDashboard.matchScore draftSection u ≤ ReviewDashboard.matchScore draftSection t) ∧
    (∀ (used : List String) (templateSections : List Section) (draftSection : Section),
      (∀ u ∈ templateSections, u.id ∉ used →
        ReviewDashboard.matchScore draftSection u < 40) →
      ReviewDashboard.alignStep used templateSections draftSection = none) := by
  refine ⟨?_, ?_, ?_, ?_⟩
  · intro used ts d t h
    exact floor_accept used (ComparisonView.pairScore d) 30 ts t h
  · intro used ts d h
    exact floor_reject used (ComparisonView.pairScore d) 30 ts h
  · intro used ts d t h
    exact floor_accept used (ReviewDashboard.matchScore d) 40 ts t h
  · intro used ts d h
    exact floor_reject used (ReviewDashboard.matchScore d) 40 ts h

/-- C2 witness: with no templates the floor cannot be met and both variants
record null; and a draft section accepted by the comparison-view step at a
concrete input indeed scores at least 30. -/
theorem aligner_floor_spec_witness :
    ComparisonView.alignStep [] [] ⟨"d", none, none, 1, ""⟩ = none ∧
    ReviewDashboard.alignStep [] [] ⟨"d", none, none, 1, ""⟩ = none ∧
    30 ≤ ComparisonView.pairScore ⟨"d1", some "1", some "Scope", 1, ""⟩
      ⟨"t1", some "1", some "Scope", 1, ""⟩ := by
  refine ⟨aligner_floor_spec.2.1 [] [] _ (fun u hu => absurd hu (List.not_mem_nil u)),
    aligner_floor_spec.2.2.2 [] [] _ (fun u hu => absurd hu (List.not_mem_nil u)), ?_⟩
  have he : ComparisonView.alignStep [] [⟨"t1", some "1", some "Scope", 1, ""⟩]
      ⟨"d1", some "1", some "Scope", 1, ""⟩ = some ⟨"t1", some "1", some "Scope", 1, ""⟩ := by
    have h1 : DiffUtils.calculateSimilarity "Scope" "Scope" = 100 := by decide
    have h2 : DiffUtils.calculateSimilarity (jsTake "" 500) (jsTake "" 500) = 100 := by decide
    simp [ComparisonView.alignStep, bestLoop, ComparisonView.pairScore, h1, h2]
    norm_num
  exact (aligner_floor_spec.1 [] [_] _ _ he).2.2.1

/-- C8: each aligner variant is a deterministic pure function of the two
section lists — two runs on identical inputs return identical maps. -/
theorem align_deterministic
    (templateSections draftSections templateSections2 draftSections2 : List Section)
    (ht : templateSections = templateSections2) (hd : draftSections = draftSections2) :
    ComparisonView.sectionPairs templateSections draftSections =
      ComparisonView.sectionPairs templateSections2 draftSections2 ∧
    DocxParser.matchSections templateSections draftSections =
      DocxParser.matchSections templateSections2 draftSections2 ∧
    ReviewDashboard.sectionMatches templateSections draftSections =
      ReviewDashboard.sectionMatches templateSections2 draftSections2 := by
  subst ht
  subst hd
  exact ⟨rfl, rfl, rfl⟩

/-- C8 witness: determinism applied at a concrete template/draft pair. -/
theorem align_deterministic_witness :
    ComparisonView.sectionPairs [⟨"t", some "1", some "Scope", 1, ""⟩]
        [⟨"d", some "1", some "Scope", 1, ""⟩] =
      ComparisonView.sectionPairs [⟨"t", some "1", some "Scope", 1, ""⟩]
        [⟨"d", some "1", some "Scope", 1, ""⟩] ∧
    DocxParser.matchSections [⟨"t", some "1", some "Scope", 1, ""⟩]
        [⟨"d", some "1", some "Scope", 1, ""⟩] =
      DocxParser.matchSections [⟨"t", some "1", some "Scope", 1, ""⟩]
        [⟨"d", some "1", some "Scope", 1, ""⟩] ∧
    ReviewDashboard.sectionMatches [⟨"t", some "1", some "Scope", 1, ""⟩]
        [⟨"d", some "1", some "Scope", 1, ""⟩] =
      ReviewDashboard.sectionMatches [⟨"t", some "1", some "Scope", 1, ""⟩]
        [⟨"d", some "1", some "Scope", 1, ""⟩] :=
  align_deterministic _ _ _ _ rfl rfl

/-! ### Lemmas for the section-level rule -/

theorem alpha_not_digit {c : Char} (h : c.isAlpha = true) : c.isDigit = false := by
  simp [Char.isAlpha, Char.isUpper, Char.isLower, Char.isDigit, UInt32.le_def,
    BitVec.le_def] at *
  omega

theorem alpha_ne_dot {c : Char} (h : c.isAlpha = true) : c ≠ '.' := by
  intro h0
  rw [h0] at h
  exact absurd h (by decide)

theorem alnum_ne_dot {c : Char} (h : isAlnum c = true) : c ≠ '.' := by
  intro h0
  rw [h0] at h
  exact absurd h (by decide)

theorem isRomanToken_no_dots {s : String} (h : isRomanToken s = true) :
    countDots s = 0 := by
  unfold isRomanToken at h
  rw [Bool.and_eq_true] at h
  have hall := List.all_eq_true.mp h.2
  unfold countDots
  rw [List.countP_eq_zero]
  intro c hc hdot
  have hmem := hall c hc
  rw [show c = '.' by simpa using hdot] at hmem
  exact absurd hmem (by decide)

theorem isSingleLetterToken_no_dots {s : String} (h : isSingleLetterToken s = true) :
    countDots s = 0 := by
  unfold isSingleLetterToken at h
  unfold countDots
  cases hl : s.toList with
  | nil => simp
  | cons c cs =>
      cases cs with
      | nil =>
          rw [hl] at h
          simp only [List.countP, List.countP.go]
          have := alpha_ne_dot h
          simp [this]
      | cons d ds =>
          rw [hl] at h
          exact absurd h (by simp)

theorem isParenToken_decomp {s : String} (h : isParenToken s = true) :
    ∃ mid, s.toList = '(' :: mid ++ [')'] ∧ mid ≠ [] ∧ mid.all isAlnum = true := by
  unfold isParenToken at h
  split at h
  next rest heq =>
    simp only [Bool.and_eq_true, decide_eq_true_eq] at h
    obtain ⟨⟨hlast, hne⟩, hall⟩ := h
    have hrne : rest ≠ [] := by
      intro h0
      rw [h0] at hlast
      simp at hlast
    refine ⟨rest.dropLast, ?_, hne, hall⟩
    rw [heq]
    congr 1
    conv_lhs => rw [← List.dropLast_append_getLast hrne]
    congr 1
    have hg := List.getLast?_eq_getLast rest hrne
    rw [hg] at hlast
    simpa using hlast
  next => exact absurd h (by simp)

theorem isParenToken_no_dots {s : String} (h : isParenToken s = true) :
    countDots s = 0 := by
  obtain ⟨mid, hl, _, hall⟩ := isParenToken_decomp h
  unfold countDots
  rw [hl, List.countP_eq_zero]
  intro c hc hdot
  have hc' : c = '.' := by simpa using hdot
  subst hc'
  rcases List.mem_cons.mp hc with h0 | h0
  · exact absurd h0 (by decide)
  · rcases List.mem_append.mp h0 with h1 | h1
    · exact absurd rfl (alnum_ne_dot (List.all_eq_true.mp hall _ h1))
    · rcases List.mem_singleton.mp h1 with h2
      exact absurd h2 (by decide)

theorem isParenToken_not_roman {s : String} (h : isParenToken s = true) :
    isRomanToken s = false := by
  obtain ⟨mid, hl, _, _⟩ := isParenToken_decomp h
  unfold isRomanToken
  rw [Bool.and_eq_false_iff]
  right
  rw [List.all_eq_false]
  exact ⟨'(', by rw [hl]; exact List.mem_cons_self _ _, by decide⟩

theorem isParenToken_not_letter {s : String} (h : isParenToken s = true) :
    isSingleLetterToken s = false := by
  obtain ⟨mid, hl, hne, _⟩ := isParenToken_decomp h
  unfold isSingleLetterToken
  rw [hl]
  cases mid with
  | nil => exact absurd rfl hne
  | cons a l => simp

theorem ne_empty_of_toList_cons {s : String} {c : Char} {l : List Char}
    (h : s.toList = c :: l) : s ≠ "" := by
  intro h0
  rw [h0] at h
  exact List.noConfusion h

/-- A character that is not a separator lies in one of the split groups. -/
theorem splitChars_mem {p : Char → Bool} {c : Char} :
    ∀ {l : List Char}, c ∈ l → p c = false → ∃ g ∈ splitChars p l, c ∈ g := by
  intro l
  induction l with
  | nil => intro h _; cases h
  | cons a l ih =>
      intro hc hpc
      simp only [splitChars]
      by_cases hpa : p a = true
      · rw [if_pos hpa]
        rcases List.mem_cons.mp hc with rfl | hmem
        · rw [hpa] at hpc; cases hpc
        · obtain ⟨g, hg, hcg⟩ := ih hmem hpc
          exact ⟨g, List.mem_cons_of_mem _ hg, hcg⟩
      · rw [if_neg hpa]
        rcases List.mem_cons.mp hc with rfl | hmem
        · cases hsp : splitChars p l with
          | nil => exact ⟨[c], List.mem_singleton_self _, List.mem_singleton_self _⟩
          | cons g gs => exact ⟨c :: g, List.mem_cons_self _ _, List.mem_cons_self _ _⟩
        · obtain ⟨g, hg, hcg⟩ := ih hmem hpc
          cases hsp : splitChars p l with
          | nil => rw [hsp] at hg; cases hg
          | cons g0 gs =>
              rw [hsp] at hg
              rcases List.mem_cons.mp hg with rfl | hgm
              · exact ⟨a :: g, List.mem_cons_self _ _, List.mem_cons_of_mem _ hcg⟩
              · exact ⟨g, List.mem_cons_of_mem _ hgm, hcg⟩

theorem numberTokenShape_ne_empty {s : String} (h : DocxParser.numberTokenShape s = true) :
    s ≠ "" := by
  intro h0
  subst h0
  exact absurd h (by decide)

theorem numberTokenShape_not_paren {s : String} (h : DocxParser.numberTokenShape s = true) :
    isParenToken s = false := by
  by_contra hp
  rw [Bool.not_eq_false] at hp
  obtain ⟨mid, hl, _, _⟩ := isParenToken_decomp hp
  have hmem : '(' ∈ s.toList := by rw [hl]; exact List.mem_cons_self _ _
  unfold DocxParser.numberTokenShape DocxParser.digitsDottedToken
    DocxParser.romanDigitToken at h
  rw [Bool.or_eq_true] at h
  rcases h with h | h
  · obtain ⟨g, hg, hcg⟩ :=
      @splitChars_mem (fun c => c = '.') '(' s.toList hmem (by decide)
    have := List.all_eq_true.mp h g hg
    rw [Bool.and_eq_true] at this
    have := List.all_eq_true.mp this.2 _ hcg
    exact absurd this (by decide)
  · rw [Bool.and_eq_true] at h
    have := List.all_eq_true.mp h.2 _ hmem
    exact absurd this (by decide)

theorem numberTokenShape_letter_roman {s : String}
    (h : DocxParser.numberTokenShape s = true)
    (hl : isSingleLetterToken s = true) : isRomanToken s = true := by
  unfold isSingleLetterToken at hl
  cases hlist : s.toList with
  | nil => rw [hlist] at hl; exact absurd hl (by simp)
  | cons c cs =>
      cases cs with
      | cons d ds => rw [hlist] at hl; exact absurd hl (by simp)
      | nil =>
          rw [hlist] at hl
          unfold DocxParser.numberTokenShape DocxParser.digitsDottedToken
            DocxParser.romanDigitToken at h
          rw [hlist, Bool.or_eq_true] at h
          rcases h with h | h
          · have hsp : splitChars (fun x => x = '.') [c] = [[c]] := by
              simp [splitChars, alpha_ne_dot hl]
            rw [hsp] at h
            simp only [List.all_cons, List.all_nil, Bool.and_true, Bool.and_eq_true] at h
            exact absurd h.2 (by rw [alpha_not_digit hl]; exact Bool.false_ne_true)
          · rw [Bool.and_eq_true] at h
            have hcr := List.all_eq_true.mp h.2 c (List.mem_singleton_self _)
            rw [Bool.or_eq_true] at hcr
            rcases hcr with hcr | hcr
            · unfold isRomanToken
              rw [Bool.and_eq_true, hlist]
              exact ⟨decide_eq_true (ne_empty_of_toList_cons hlist),
                List.all_eq_true.mpr (fun x hx => by
                  rcases List.mem_singleton.mp hx with rfl
                  exact hcr)⟩
            · exact absurd hcr (by rw [alpha_not_digit hl]; exact Bool.false_ne_true)

theorem sowLevel_eq_rule (s : String) :
    SowParser.calculateSectionLevel (some s) = specLevelRule s := by
  by_cases h0 : s = ""
  · subst h0; decide
  · unfold SowParser.calculateSectionLevel specLevelRule
    dsimp only
    rw [if_neg h0]

/-- C4: the derived section level follows the spec's token-class rule, with
the classes tested in the spec's order (dotted, roman, single letter,
parenthesized, otherwise).  The part_005 `calculateSectionLevel` realizes
the whole rule for every token; a token with dots always yields
dot-count + 1 and a roman token always yields 1 in both parser variants; a
single non-roman letter yields 2 and a parenthesized token yields 3 in the
part_005 variant; and on every numbering token that docxParser's own
patterns can extract (dotted numerics and roman/digit runs — never letters
or parenthesized tokens), the docxParser variant also satisfies the rule. -/
theorem level_rule_spec :
    (∀ s : String, SowParser.calculateSectionLevel (some s) = specLevelRule s) ∧
    (∀ s : String, 0 < countDots s →
      SowParser.calculateSectionLevel (some s) = countDots s + 1 ∧
      DocxParser.calculateSectionLevel (some s) = countDots s + 1) ∧
    (∀ s : String, isRomanToken s = true →
      SowParser.calculateSectionLevel (some s) = 1 ∧
      DocxParser.calculateSectionLevel (some s) = 1) ∧
    (∀ s : String, isSingleLetterToken s = true → isRomanToken s = false →
      SowParser.calculateSectionLevel (some s) = 2) ∧
    (∀ s : String, isParenToken s = true →
      SowParser.calculateSectionLevel (some s) = 3) ∧
    (∀ s : String, DocxParser.numberTokenShape s = true →
      DocxParser.calculateSectionLevel (some s) = specLevelRule s) := by
  have hne : ∀ s : String, 0 < countDots s → s ≠ "" := by
    intro s h h0
    subst h0
    simp [countDots] at h
  have hroman_ne : ∀ s : String, isRomanToken s = true → s ≠ "" := by
    intro s h
    unfold isRomanToken at h
    rw [Bool.and_eq_true] at h
    simpa using h.1
  have hletter_ne : ∀ s : String, isSingleLetterToken s = true → s ≠ "" := by
    intro s h
    unfold isSingleLetterToken at h
    cases hl : s.toList with
    | nil => rw [hl] at h; exact absurd h (by simp)
    | cons c cs => exact ne_empty_of_toList_cons hl
  refine ⟨sowLevel_eq_rule, ?_, ?_, ?_, ?_, ?_⟩
  · intro s h
    constructor
    · unfold SowParser.calculateSectionLevel
      dsimp only
      rw [if_neg (hne s h), if_pos h]
    · unfold DocxParser.calculateSectionLevel
      dsimp only
      rw [if_neg (hne s h), if_pos h]
  · intro s h
    have hd : ¬ 0 < countDots s := by rw [isRomanToken_no_dots h]; exact lt_irrefl 0
    constructor
    · unfold SowParser.calculateSectionLevel
      dsimp only
      rw [if_neg (hroman_ne s h), if_neg hd, if_pos h]
    · unfold DocxParser.calculateSectionLevel
      dsimp only
      rw [if_neg (hroman_ne s h), if_neg hd, if_pos h]
  · intro s h hr
    have hd : ¬ 0 < countDots s := by
      rw [isSingleLetterToken_no_dots h]; exact lt_irrefl 0
    unfold SowParser.calculateSectionLevel
    dsimp only
    rw [if_neg (hletter_ne s h), if_neg hd, if_neg (by rw [hr]; exact Bool.false_ne_true),
      if_pos h]
  · intro s h
    obtain ⟨mid, hl, _, _⟩ := isParenToken_decomp h
    have hd : ¬ 0 < countDots s := by rw [isParenToken_no_dots h]; exact lt_irrefl 0
    unfold SowParser.calculateSectionLevel
    dsimp only
    rw [if_neg (ne_empty_of_toList_cons hl), if_neg hd,
      if_neg (by rw [isParenToken_not_roman h]; exact Bool.false_ne_true),
      if_neg (by rw [isParenToken_not_letter h]; exact Bool.false_ne_true),
      if_pos h]
  · intro s h
    unfold DocxParser.calculateSectionLevel specLevelRule
    dsimp only
    rw [if_neg (numberTokenShape_ne_empty h)]
    by_cases hd : 0 < countDots s
    · rw [if_pos hd, if_pos hd]
    · rw [if_neg hd, if_neg hd]
      by_cases hr : isRomanToken s = true
      · rw [if_pos hr, if_pos hr]
      · rw [if_neg hr, if_neg hr]
        have hl : ¬ isSingleLetterToken s = true := by
          intro hl
          exact hr (numberTokenShape_letter_roman h hl)
        rw [if_neg hl,
          if_neg (by rw [numberTokenShape_not_paren h]; exact Bool.false_ne_true)]

/-- C4 witness: the rule evaluated at concrete tokens "3.2.1" (two dots,
level 3), "IV" (roman, level 1), "b" (single letter, level 2), "(a)"
(parenthesized, level 3) and the docxParser-extractable token "7". -/
theorem level_rule_spec_witness :
    SowParser.calculateSectionLevel (some "3.2.1") = countDots "3.2.1" + 1 ∧
    DocxParser.calculateSectionLevel (some "3.2.1") = countDots "3.2.1" + 1 ∧
    SowParser.calculateSectionLevel (some "IV") = 1 ∧
    SowParser.calculateSectionLevel (some "b") = 2 ∧
    SowParser.calculateSectionLevel (some "(a)") = 3 ∧
    DocxParser.calculateSectionLevel (some "7") = specLevelRule "7" :=
  ⟨(level_rule_spec.2.1 "3.2.1" (by decide)).1,
   (level_rule_spec.2.1 "3.2.1" (by decide)).2,
   (level_rule_spec.2.2.1 "IV" (by decide)).1,
   level_rule_spec.2.2.2.1 "b" (by decide) (by decide),
   level_rule_spec.2.2.2.2.1 "(a)" (by decide),
   level_rule_spec.2.2.2.2.2 "7" (by decide)⟩

theorem segFold_invariant (ps : List String) (st : DocxParser.SegState)
    (htoc : ∀ p ∈ ps, DocxParser.isTocTrigger (jsTrim p) = false)
    (hst : st.toc = false)
    (hcb : st.current = none → st.curBody = []) :
    ((ps.foldl DocxParser.segStep st).out.flatMap DocxParser.HSection.paras ++
        (ps.foldl DocxParser.segStep st).curBody =
      (st.out.flatMap DocxParser.HSection.paras ++ st.curBody) ++ htmlNonHeaderParas ps) ∧
    (ps.foldl DocxParser.segStep st).toc = false ∧
    ((ps.foldl DocxParser.segStep st).current = none →
      (ps.foldl DocxParser.segStep st).curBody = []) := by
  induction ps generalizing st with
  | nil =>
      refine ⟨?_, hst, hcb⟩
      simp [htmlNonHeaderParas]
  | cons p ps ih =>
      have hp := htoc p (List.mem_cons_self _ _)
      have hrest : ∀ q ∈ ps, DocxParser.isTocTrigger (jsTrim q) = false :=
        fun q hq => htoc q (List.mem_cons_of_mem _ hq)
      simp only [List.foldl_cons]
      by_cases h0 : jsTrim p = ""
      · have hstep : DocxParser.segStep st p = st := by
          unfold DocxParser.segStep
          rw [if_pos h0]
        have hh : htmlNonHeaderParas (p :: ps) = htmlNonHeaderParas ps := by
          unfold htmlNonHeaderParas
          rw [List.filterMap_cons]
          simp [h0]
        rw [hstep, hh]
        exact ih st hrest hst hcb
      · cases hdet : DocxParser.detectSectionHeader (jsTrim p) with
        | some info =>
            obtain ⟨num, title⟩ := info
            have hh : htmlNonHeaderParas (p :: ps) = htmlNonHeaderParas ps := by
              unfold htmlNonHeaderParas
              rw [List.filterMap_cons]
              simp [hdet]
            cases hcur : st.current with
            | some p0 =>
                have hstep : DocxParser.segStep st p =
                    ⟨some ⟨num, title, DocxParser.calculateSectionLevel num,
                      (st.out ++ [DocxParser.finishSection p0 st.curBody]).length⟩, [],
                      false, st.out ++ [DocxParser.finishSection p0 st.curBody]⟩ := by
                  unfold DocxParser.segStep
                  rw [if_neg h0, if_neg (by rw [hp]; exact Bool.false_ne_true),
                      if_neg (by rw [hst]; simp)]
                  dsimp only
                  rw [hdet, hcur]
                rw [hstep, hh]
                obtain ⟨ih1, ih2, ih3⟩ := ih ⟨some ⟨num, title,
                    DocxParser.calculateSectionLevel num,
                    (st.out ++ [DocxParser.finishSection p0 st.curBody]).length⟩, [],
                    false, st.out ++ [DocxParser.finishSection p0 st.curBody]⟩
                  hrest rfl (by intro hx; simp at hx)
                refine ⟨?_, ih2, ih3⟩
                rw [ih1]
                simp [DocxParser.finishSection]
            | none =>
                have hstep : DocxParser.segStep st p =
                    ⟨some ⟨num, title, DocxParser.calculateSectionLevel num,
                      st.out.length⟩, [], false, st.out⟩ := by
                  unfold DocxParser.segStep
                  rw [if_neg h0, if_neg (by rw [hp]; exact Bool.false_ne_true),
                      if_neg (by rw [hst]; simp)]
                  dsimp only
                  rw [hdet, hcur]
                rw [hstep, hh]
                obtain ⟨ih1, ih2, ih3⟩ := ih ⟨some ⟨num, title,
                    DocxParser.calculateSectionLevel num, st.out.length⟩, [],
                    false, st.out⟩ hrest rfl (by intro hx; simp at hx)
                refine ⟨?_, ih2, ih3⟩
                rw [ih1, hcb hcur]
        | none =>
            have hh : htmlNonHeaderParas (p :: ps) = jsTrim p :: htmlNonHeaderParas ps := by
              unfold htmlNonHeaderParas
              rw [List.filterMap_cons]
              simp [hdet, h0]
            cases hcur : st.current with
            | some p0 =>
                have hstep : DocxParser.segStep st p =
                    ⟨st.current, st.curBody ++ [jsTrim p], false, st.out⟩ := by
                  unfold DocxParser.segStep
                  rw [if_neg h0, if_neg (by rw [hp]; exact Bool.false_ne_true),
                      if_neg (by rw [hst]; simp)]
                  dsimp only
                  rw [hdet, hcur]
                  simp [hst, hcur]
                rw [hstep, hh]
                obtain ⟨ih1, ih2, ih3⟩ := ih ⟨st.current, st.curBody ++ [jsTrim p],
                    false, st.out⟩ hrest rfl (by intro hx; simp [hcur] at hx)
                refine ⟨?_, ih2, ih3⟩
                rw [ih1]
                simp
            | none =>
                have hstep : DocxParser.segStep st p =
                    ⟨some ⟨none, "Introduction", 1, 0⟩, [jsTrim p], false, st.out⟩ := by
                  unfold DocxParser.segStep
                  rw [if_neg h0, if_neg (by rw [hp]; exact Bool.false_ne_true),
                      if_neg (by rw [hst]; simp)]
                  dsimp only
                  rw [hdet, hcur]
                  simp [hst]
                rw [hstep, hh]
                obtain ⟨ih1, ih2, ih3⟩ := ih ⟨some ⟨none, "Introduction", 1, 0⟩,
                    [jsTrim p], false, st.out⟩ hrest rfl (by intro hx; simp at hx)
                refine ⟨?_, ih2, ih3⟩
                rw [ih1, hcb hcur]
                simp



theorem html_partition (paras : List String)
    (htoc : ∀ p ∈ paras, DocxParser.isTocTrigger (jsTrim p) = false) :
    (DocxParser.extractSectionsFromParas paras).flatMap DocxParser.HSection.paras =
      htmlNonHeaderParas paras := by
  obtain ⟨h1, _h2, h3⟩ := segFold_invariant paras ⟨none, [], false, []⟩ htoc rfl (fun _ => rfl)
  simp only [List.flatMap_nil, List.nil_append, List.append_nil] at h1
  unfold DocxParser.extractSectionsFromParas
  dsimp only
  cases hcur : (paras.foldl DocxParser.segStep ⟨none, [], false, []⟩).current with
  | some p0 =>
      dsimp only
      rw [List.flatMap_append]
      simpa [DocxParser.finishSection] using h1
  | none =>
      dsimp only
      rw [← h1, h3 hcur]
      simp

theorem filterMap_enum_snd {α β : Type} (f : α → Option β) (l : List α) :
    l.enum.filterMap (fun ip => f ip.2) = l.filterMap f := by
  suffices h : ∀ n, (l.enumFrom n).filterMap (fun ip => f ip.2) = l.filterMap f by
    exact h 0
  induction l with
  | nil => intro n; rfl
  | cons a l ih =>
      intro n
      simp only [List.enumFrom, List.filterMap_cons]
      cases f a <;> simp [ih (n + 1)]

theorem sowFold_invariant (ips : List (Nat × String)) (st : SowParser.TState)
    (hcb : st.current = none → st.curBody = []) :
    ((ips.foldl SowParser.stepPara st).out.flatMap SowParser.TSection.paras ++
        (ips.foldl SowParser.stepPara st).curBody =
      (st.out.flatMap SowParser.TSection.paras ++ st.curBody) ++
        ips.filterMap (fun ip =>
          if jsTrim ip.2 ≠ "" ∧
              (if (jsTrim ip.2).length < 200
               then SowParser.parseParagraphAsSection (jsTrim ip.2) else none) = none
          then some (jsTrim ip.2) else none)) ∧
    ((ips.foldl SowParser.stepPara st).current = none →
      (ips.foldl SowParser.stepPara st).curBody = []) := by
  induction ips generalizing st with
  | nil => exact ⟨by simp, hcb⟩
  | cons ip ips ih =>
      simp only [List.foldl_cons, List.filterMap_cons]
      by_cases h0 : jsTrim ip.2 = ""
      · have hstep : SowParser.stepPara st ip = st := by
          unfold SowParser.stepPara
          rw [if_pos h0]
        rw [hstep]
        obtain ⟨ih1, ih3⟩ := ih st hcb
        refine ⟨?_, ih3⟩
        rw [ih1]
        simp [h0]
      · cases hpot : (if (jsTrim ip.2).length < 200
            then SowParser.parseParagraphAsSection (jsTrim ip.2) else none) with
        | some info =>
            obtain ⟨num, title, lvl⟩ := info
            cases hcur : st.current with
            | some p0 =>
                have hstep : SowParser.stepPara st ip =
                    ⟨some ⟨num, title, lvl, ip.1⟩, [],
                      st.out ++ [SowParser.finishSection p0 st.curBody (ip.1 - 1)]⟩ := by
                  unfold SowParser.stepPara
                  rw [if_neg h0]
                  dsimp only
                  rw [hpot, hcur]
                rw [hstep]
                obtain ⟨ih1, ih3⟩ := ih ⟨some ⟨num, title, lvl, ip.1⟩, [],
                    st.out ++ [SowParser.finishSection p0 st.curBody (ip.1 - 1)]⟩
                  (by intro hx; simp at hx)
                refine ⟨?_, ih3⟩
                rw [ih1]
                simp [hpot, SowParser.finishSection]
            | none =>
                have hstep : SowParser.stepPara st ip =
                    ⟨some ⟨num, title, lvl, ip.1⟩, [], st.out⟩ := by
                  unfold SowParser.stepPara
                  rw [if_neg h0]
                  dsimp only
                  rw [hpot, hcur]
                rw [hstep]
                obtain ⟨ih1, ih3⟩ := ih ⟨some ⟨num, title, lvl, ip.1⟩, [], st.out⟩
                  (by intro hx; simp at hx)
                refine ⟨?_, ih3⟩
                rw [ih1, hcb hcur]
                simp [hpot]
        | none =>
            cases hcur : st.current with
            | some p0 =>
                have hstep : SowParser.stepPara st ip =
                    ⟨some p0, st.curBody ++ [jsTrim ip.2], st.out⟩ := by
                  unfold SowParser.stepPara
                  rw [if_neg h0]
                  dsimp only
                  rw [hpot, hcur]
                rw [hstep]
                obtain ⟨ih1, ih3⟩ := ih ⟨some p0, st.curBody ++ [jsTrim ip.2], st.out⟩
                  (by intro hx; simp at hx)
                refine ⟨?_, ih3⟩
                rw [ih1]
                simp [hpot, h0]
            | none =>
                have hstep : SowParser.stepPara st ip =
                    ⟨some ⟨none, some "Introduction", 1, ip.1⟩, [jsTrim ip.2], st.out⟩ := by
                  unfold SowParser.stepPara
                  rw [if_neg h0]
                  dsimp only
                  rw [hpot, hcur]
                rw [hstep]
                obtain ⟨ih1, ih3⟩ := ih ⟨some ⟨none, some "Introduction", 1, ip.1⟩,
                    [jsTrim ip.2], st.out⟩ (by intro hx; simp at hx)
                refine ⟨?_, ih3⟩
                rw [ih1, hcb hcur]
                simp [hpot, h0]

theorem sow_partition (text : String) :
    (SowParser.extractSections text).flatMap SowParser.TSection.paras =
      sowNonHeaderParas text := by
  obtain ⟨h1, h3⟩ := sowFold_invariant (SowParser.splitParas text).enum
    ⟨none, [], []⟩ (fun _ => rfl)
  simp only [List.flatMap_nil, List.nil_append, List.append_nil] at h1
  have henum := filterMap_enum_snd (fun p =>
      if jsTrim p ≠ "" ∧
          (if (jsTrim p).length < 200
           then SowParser.parseParagraphAsSection (jsTrim p) else none) = none
      then some (jsTrim p) else none) (SowParser.splitParas text)
  rw [show sowNonHeaderParas text = (SowParser.splitParas text).filterMap (fun p =>
      if jsTrim p ≠ "" ∧
          (if (jsTrim p).length < 200
           then SowParser.parseParagraphAsSection (jsTrim p) else none) = none
      then some (jsTrim p) else none) from rfl, ← henum]

  unfold SowParser.extractSections
  dsimp only
  cases hcur : ((SowParser.splitParas text).enum.foldl SowParser.stepPara
      ⟨none, [], []⟩).current with
  | some p0 =>
      dsimp only
      rw [List.flatMap_append]
      simpa [SowParser.finishSection] using h1
  | none =>
      dsimp only
      rw [← h1, h3 hcur]
      simp

/-- The HTML-variant step either keeps the closed-section list or closes
exactly one section built by `finishSection`. -/
theorem segStep_out (st : DocxParser.SegState) (p : String) :
    (DocxParser.segStep st p).out = st.out ∨
      ∃ q b, (DocxParser.segStep st p).out =
        st.out ++ [DocxParser.finishSection q b] := by
  unfold DocxParser.segStep
  by_cases h0 : jsTrim p = ""
  · rw [if_pos h0]; exact Or.inl rfl
  · rw [if_neg h0]
    by_cases h1 : DocxParser.isTocTrigger (jsTrim p) = true
    · rw [if_pos h1]; exact Or.inl rfl
    · rw [if_neg h1]
      by_cases h2 : (st.toc && isTocEntry (jsTrim p)) = true
      · rw [if_pos h2]; exact Or.inl rfl
      · rw [if_neg h2]
        dsimp only
        cases DocxParser.detectSectionHeader (jsTrim p) with
        | some info =>
            obtain ⟨num, title⟩ := info
            cases st.current with
            | some q => exact Or.inr ⟨q, st.curBody, rfl⟩
            | none => exact Or.inl rfl
        | none =>
            cases st.current with
            | some q => exact Or.inl rfl
            | none => exact Or.inl rfl

/-- Every section the HTML-variant segmenter outputs stores as `body` the
`"\n\n"`-join of its collected paragraphs. -/
theorem extract_body_join (paras : List String) :
    ∀ s ∈ DocxParser.extractSectionsFromParas paras,
      s.body = String.intercalate "\n\n" s.paras := by
  have hfold : ∀ (ps : List String) (st : DocxParser.SegState),
      (∀ s ∈ st.out, s.body = String.intercalate "\n\n" s.paras) →
      ∀ s ∈ (ps.foldl DocxParser.segStep st).out,
        s.body = String.intercalate "\n\n" s.paras := by
    intro ps
    induction ps with
    | nil => intro st h; exact h
    | cons p ps ih =>
        intro st h
        simp only [List.foldl_cons]
        apply ih
        intro s hs
        rcases segStep_out st p with ho | ⟨q, b, ho⟩
        · rw [ho] at hs; exact h s hs
        · rw [ho] at hs
          rcases List.mem_append.mp hs with hs | hs
          · exact h s hs
          · rcases List.mem_singleton.mp hs with rfl
            rfl
  intro s hs
  unfold DocxParser.extractSectionsFromParas at hs
  dsimp only at hs
  cases hcur : (paras.foldl DocxParser.segStep ⟨none, [], false, []⟩).current with
  | some q =>
      rw [hcur] at hs
      dsimp only at hs
      rcases List.mem_append.mp hs with hs2 | hs2
      · exact hfold paras _ (fun u hu => absurd hu (List.not_mem_nil u)) s hs2
      · rcases List.mem_singleton.mp hs2 with rfl
        rfl
  | none =>
      rw [hcur] at hs
      exact hfold paras _ (fun u hu => absurd hu (List.not_mem_nil u)) s hs

/-- The part_005 step either keeps the closed-section list or closes
exactly one section. -/
theorem stepPara_out (st : SowParser.TState) (ip : Nat × String) :
    (SowParser.stepPara st ip).out = st.out ∨
      ∃ q b e, (SowParser.stepPara st ip).out =
        st.out ++ [SowParser.finishSection q b e] := by
  unfold SowParser.stepPara
  by_cases h0 : jsTrim ip.2 = ""
  · rw [if_pos h0]; exact Or.inl rfl
  · rw [if_neg h0]
    dsimp only
    cases (if (jsTrim ip.2).length < 200
        then SowParser.parseParagraphAsSection (jsTrim ip.2) else none) with
    | some info =>
        obtain ⟨num, title, lvl⟩ := info
        cases st.current with
        | some q => exact Or.inr ⟨q, st.curBody, ip.1 - 1, rfl⟩
        | none => exact Or.inl rfl
    | none =>
        cases st.current with
        | some q => exact Or.inl rfl
        | none => exact Or.inl rfl

/-- Every section the part_005 segmenter outputs stores as `body` the
`"\n\n"`-join of its collected paragraphs. -/
theorem extractSections_body_join (text : String) :
    ∀ s ∈ SowParser.extractSections text,
      s.body = String.intercalate "\n\n" s.paras := by
  have hfold : ∀ (ips : List (Nat × String)) (st : SowParser.TState),
      (∀ s ∈ st.out, s.body = String.intercalate "\n\n" s.paras) →
      ∀ s ∈ (ips.foldl SowParser.stepPara st).out,
        s.body = String.intercalate "\n\n" s.paras := by
    intro ips
    induction ips with
    | nil => intro st h; exact h
    | cons ip ips ih =>
        intro st h
        simp only [List.foldl_cons]
        apply ih
        intro s hs
        rcases stepPara_out st ip with ho | ⟨q, b, e, ho⟩
        · rw [ho] at hs; exact h s hs
        · rw [ho] at hs
          rcases List.mem_append.mp hs with hs | hs
          · exact h s hs
          · rcases List.mem_singleton.mp hs with rfl
            rfl
  intro s hs
  unfold SowParser.extractSections at hs
  dsimp only at hs
  cases hcur : ((SowParser.splitParas text).enum.foldl SowParser.stepPara
      ⟨none, [], []⟩).current with
  | some q =>
      rw [hcur] at hs
      dsimp only at hs
      rcases List.mem_append.mp hs with hs2 | hs2
      · exact hfold _ _ (fun u hu => absurd hu (List.not_mem_nil u)) s hs2
      · rcases List.mem_singleton.mp hs2 with rfl
        rfl
  | none =>
      rw [hcur] at hs
      exact hfold _ _ (fun u hu => absurd hu (List.not_mem_nil u)) s hs

/-- C3 counterexample: with a table-of-contents trigger present, the HTML
segmenter drops non-header paragraphs.  After the header "INTRO" and the
trigger paragraph "contents", the non-header paragraph "abc" is appended
to no section body (TOC suppression is still active), so the concatenated
bodies collect nothing while the non-header paragraphs of the input are
["contents", "abc"]. -/
theorem html_partition_counterexample :
    (DocxParser.extractSectionsFromParas ["INTRO", "contents", "abc"]).flatMap
        DocxParser.HSection.paras = [] ∧
    htmlNonHeaderParas ["INTRO", "contents", "abc"] = ["contents", "abc"] ∧
    ([] : List String) ≠ ["contents", "abc"] :=
  ⟨by decide, by decide, by decide⟩

/-- C3 (amended): the partition invariant holds unconditionally for the
plain-text segmenter of part_005, and for the HTML-variant segmenter on
every paragraph list without a table-of-contents trigger paragraph (TOC
suppression deliberately drops paragraphs, as the counterexample shows):
the concatenation of the section bodies' paragraph lists, in order, is
exactly the list of trimmed non-header paragraphs — none duplicated, none
dropped — and every section's body is the "\n\n"-join of its paragraph
list. -/
theorem segmenter_partition (text : String) (paras : List String)
    (htoc : ∀ p ∈ paras, DocxParser.isTocTrigger (jsTrim p) = false) :
    (SowParser.extractSections text).flatMap SowParser.TSection.paras =
      sowNonHeaderParas text ∧
    (DocxParser.extractSectionsFromParas paras).flatMap DocxParser.HSection.paras =
      htmlNonHeaderParas paras ∧
    (∀ s ∈ SowParser.extractSections text,
      s.body = String.intercalate "\n\n" s.paras) ∧
    (∀ s ∈ DocxParser.extractSectionsFromParas paras,
      s.body = String.intercalate "\n\n" s.paras) :=
  ⟨sow_partition text, html_partition paras htoc,
   extractSections_body_join text, extract_body_join paras⟩

/-- C3 witness: the partition evaluated on a concrete two-section text and
a concrete TOC-free paragraph list. -/
theorem segmenter_partition_witness :
    (SowParser.extractSections "Intro text\n\n1. Scope\nBody one\nBody two").flatMap
        SowParser.TSection.paras =
      sowNonHeaderParas "Intro text\n\n1. Scope\nBody one\nBody two" ∧
    (DocxParser.extractSectionsFromParas
        ["1. Scope", "alpha", "2. Fees", "beta"]).flatMap
        DocxParser.HSection.paras =
      htmlNonHeaderParas ["1. Scope", "alpha", "2. Fees", "beta"] :=
  ⟨(segmenter_partition "Intro text\n\n1. Scope\nBody one\nBody two"
      ["1. Scope", "alpha", "2. Fees", "beta"] (by decide)).1,
   (segmenter_partition "Intro text\n\n1. Scope\nBody one\nBody two"
      ["1. Scope", "alpha", "2. Fees", "beta"] (by decide)).2.1⟩

/-! ### Fix validity of the formatting differ -/

/-- Every difference a run comparison emits records the enclosing
paragraph index and copies its fix payload from the template run. -/
theorem compareRunPair_fix (sid : String) (i : Nat) (tr dr : RichTextRun)
    (d : FormattingDifference)
    (hd : d ∈ FormattingAnalyzer.compareRunPair sid i tr dr) :
    d.location.paragraphIndex = some i ∧
      ∀ f, d.fix = some f → payloadFromRun tr f := by
  unfold FormattingAnalyzer.compareRunPair at hd
  simp only [List.mem_append, List.mem_ite_nil_right, List.mem_singleton] at hd
  rcases hd with ((⟨_, rfl⟩ | ⟨_, rfl⟩) | ⟨_, rfl⟩) | ⟨_, rfl⟩ <;>
    exact ⟨rfl, fun f hf => by cases hf; rfl⟩

/-- Every difference a paragraph comparison emits records the paragraph
index and copies its fix payload from the template paragraph or one of
its runs. -/
theorem compareParaPair_fix (sid : String) (i : Nat) (tp dp : RichParagraph)
    (d : FormattingDifference)
    (hd : d ∈ FormattingAnalyzer.compareParaPair sid i tp dp) :
    d.location.paragraphIndex = some i ∧
      ∀ f, d.fix = some f → payloadFromPara tp f := by
  unfold FormattingAnalyzer.compareParaPair at hd
  simp only [List.mem_append, List.mem_ite_nil_right, List.mem_singleton,
    List.mem_flatMap] at hd
  rcases hd with ((((⟨_, rfl⟩ | ⟨_, rfl⟩) | ⟨_, rfl⟩) | ⟨_, rfl⟩) | ⟨_, rfl⟩) | ⟨rp, hrp, hd⟩
  · exact ⟨rfl, fun f hf => by cases hf; rfl⟩
  · exact ⟨rfl, fun f hf => by cases hf; rfl⟩
  · exact ⟨rfl, fun f hf => by cases hf; rfl⟩
  · exact ⟨rfl, fun f hf => by cases hf; rfl⟩
  · exact ⟨rfl, fun f hf => by cases hf; rfl⟩
  · obtain ⟨hloc, hpay⟩ := compareRunPair_fix sid i rp.1 rp.2 d hd
    refine ⟨hloc, fun f hf => ?_⟩
    have hmem := (List.of_mem_zip hrp).1
    have hfr := hpay f hf
    obtain ⟨ftype, fpay⟩ := f
    cases fpay with
    | paraFormatting pf => exact False.elim hfr
    | alignment v => exact False.elim hfr
    | spacingAfter v => exact False.elim hfr
    | indentLeft v => exact False.elim hfr
    | bold v => exact ⟨rp.1, hmem, hfr⟩
    | italic v => exact ⟨rp.1, hmem, hfr⟩
    | fontSize v => exact ⟨rp.1, hmem, hfr⟩
    | fontFamily v => exact ⟨rp.1, hmem, hfr⟩

/-- Every difference of a full section comparison with a present template
paragraph list satisfies the P6 fix-from-template property. -/
theorem compareSectionFormatting_fix (t dSec : RichSection)
    (tParas : List RichParagraph) (ht : t.paragraphs = some tParas)
    (d : FormattingDifference)
    (hd : d ∈ FormattingAnalyzer.compareSectionFormatting (some t) dSec) :
    fixFromTemplate tParas d := by
  unfold FormattingAnalyzer.compareSectionFormatting at hd
  dsimp only at hd
  rw [ht] at hd
  cases hdp : dSec.paragraphs with
  | none => rw [hdp] at hd; cases hd
  | some dParas =>
      rw [hdp] at hd
      dsimp only at hd
      rcases List.mem_append.mp hd with hd | hd
      · rw [List.mem_flatMap] at hd
        obtain ⟨ip, hip, hd⟩ := hd
        obtain ⟨hloc, hpay⟩ := compareParaPair_fix dSec.id ip.1 ip.2.1 ip.2.2 d hd
        unfold fixFromTemplate
        cases hfix : d.fix with
        | none => trivial
        | some f =>
            have hz := List.mk_mem_enum_iff_getElem?.mp hip
            have h1 : tParas[ip.1]? = some ip.2.1 :=
              (List.getElem?_zip_eq_some.mp hz).1
            exact ⟨ip.1, ip.2.1, hloc, h1, hpay f hfix⟩
      · cases hmt : t.tables with
        | none => rw [hmt] at hd; cases hd
        | some tT =>
            rw [hmt] at hd
            cases hmd : dSec.tables with
            | none => rw [hmd] at hd; cases hd
            | some dT =>
                rw [hmd] at hd
                dsimp only at hd
                by_cases hlen : tT.length ≠ dT.length
                · rw [if_pos hlen] at hd
                  rcases List.mem_singleton.mp hd with rfl
                  trivial
                · rw [if_neg hlen] at hd
                  cases hd

/-- C6: every FormattingDifference emitted by compareSectionFormatting
that carries a non-null fix copies its fix payload from the template
paragraph at the difference's recorded paragraph index (or from one of
that paragraph's runs); and the concrete scenario — a template run with
bold true and font size 11 against an otherwise identical draft run with
bold false — yields exactly one difference, of type font, severity
medium, with fix payload bold := true. -/
theorem diff_fix_validity :
    (∀ (t dSec : RichSection) (tParas : List RichParagraph),
        t.paragraphs = some tParas →
        ∀ d ∈ FormattingAnalyzer.compareSectionFormatting (some t) dSec,
          fixFromTemplate tParas d) ∧
    FormattingAnalyzer.compareSectionFormatting (some c6Template) c6Draft =
      [c6ExpectedDiff] := by
  constructor
  · intro t dSec tParas ht d hd
    exact compareSectionFormatting_fix t dSec tParas ht d hd
  · decide

/-- C6 witness: the general fix-validity statement applied to the concrete
scenario's single difference. -/
theorem diff_fix_validity_witness :
    c6Template.paragraphs = some [c6TemplatePara] ∧
    c6ExpectedDiff ∈
      FormattingAnalyzer.compareSectionFormatting (some c6Template) c6Draft ∧
    fixFromTemplate [c6TemplatePara] c6ExpectedDiff :=
  ⟨rfl, by decide,
   diff_fix_validity.1 c6Template c6Draft [c6TemplatePara] rfl
     c6ExpectedDiff (by decide)⟩

/-! ### Error handling of the section analyzer and the formatting differ -/

/-- C7: a failed model call (any thrown transport or parse failure) makes
analyzeSectionPair return the neutral result for that section — severity
low, no issues, no suggested revision, no legal notes, with the section
ids still filled in — and the batch loop keeps processing the remaining
sections after a failed call instead of aborting. -/
theorem analyzer_error_neutral :
    (∀ (t : Option Section) (n : Section) (e : String),
        OpenaiAnalyzer.analyzeSectionPair t n (.error e) =
          { sectionId := n.id,
            matchedOldSectionId := t.map (fun s => s.id),
            severityOverall := .low,
            issues := [],
            suggestedRevision := none,
            notesForLegalReview := [] }) ∧
    (∀ (p : Option Section × Section) (ps : List (Option Section × Section))
        (e : String) (rs : List (Except String OpenaiAnalyzer.ParsedSectionResponse)),
        OpenaiAnalyzer.analyzeSectionBatch (p :: ps) (.error e :: rs) =
          OpenaiAnalyzer.analyzeSectionPair p.1 p.2 (.error e) ::
            OpenaiAnalyzer.analyzeSectionBatch ps rs) := by
  constructor
  · intro t n e
    rfl
  · intro p ps e rs
    rfl

/-- C10: the formatting differ is total and returns the empty difference
list on a null template section, a template without a paragraph list, or
a draft without a paragraph list. -/
theorem formatting_differ_total :
    (∀ d : RichSection, FormattingAnalyzer.compareSectionFormatting none d = []) ∧
    (∀ t d : RichSection, t.paragraphs = none →
        FormattingAnalyzer.compareSectionFormatting (some t) d = []) ∧
    (∀ t d : RichSection, d.paragraphs = none →
        FormattingAnalyzer.compareSectionFormatting (some t) d = []) := by
  refine ⟨fun d => rfl, ?_, ?_⟩
  · intro t d ht
    unfold FormattingAnalyzer.compareSectionFormatting
    dsimp only
    rw [ht]
  · intro t d hd
    unfold FormattingAnalyzer.compareSectionFormatting
    dsimp only
    rw [hd]
    cases t.paragraphs <;> rfl

/-- C10 witness: the empty results evaluated on concrete sections missing
their paragraph lists. -/
theorem formatting_differ_total_witness :
    ({ id := "t0" } : RichSection).paragraphs = none ∧
    ({ id := "d0" } : RichSection).paragraphs = none ∧
    FormattingAnalyzer.compareSectionFormatting (some { id := "t0" }) { id := "d0" } = [] ∧
    FormattingAnalyzer.compareSectionFormatting
      (some { id := "t1", paragraphs := some [] }) { id := "d0" } = [] :=
  ⟨rfl, rfl,
   formatting_differ_total.2.1 { id := "t0" } { id := "d0" } rfl,
   formatting_differ_total.2.2 { id := "t1", paragraphs := some [] } { id := "d0" } rfl⟩

end SOW
